import Mathlib

/-!
# libliftoff: the layer data model (`layer.c`, `include/private.h`)

A shallow embedding of the layer primitives of libliftoff: the per-layer
property store, visibility, rectangle intersection, priorities, the
framebuffer-info cache, the candidate-plane array and the creation and
destruction of layers, followed by theorems about them.

Conventions of the embedding.

* A C string is the list of its characters before the terminating NUL, one
  `Char` per `char`; `strcmp(a, b) == 0` is equality of these lists.
* `uint64_t` and `uint32_t` values are natural numbers; no arithmetic is done on
  them by the code modelled here except the conversion to `int` in
  `layer_get_rect`.
* `int` is `Int`; the conversion of a `uint64_t` to `int` and the `int` sums of
  `layer_intersects` wrap modulo `2 ^ 32` into `[-2 ^ 31, 2 ^ 31)`.
* The array `layer->props` with its length `layer->props_len` is the list of
  its live entries; a pointer `&layer->props[i]` is the index `i`.
* The array `layer->candidate_planes`, of length
  `layer->output->device->planes_cap`, is a list of that length.
* A pointer to a plane is `Option Nat` (`none` is `NULL`): the index of the
  plane among the planes of the device. A pointer to a layer is the address of
  the layer, a natural number.
* The outcome of `realloc` and `calloc` is an input of the functions that call
  them, and so are the results of the libdrm calls `drmModeGetFB2` and
  `drmCloseBufferHandle`; `layer_cache_fb_info` returns the list of the calls
  it made.
* An increment of an `int` wraps like the sums of `layer_intersects`.
-/

namespace Liftoff

/-! ## Data model (`include/private.h`) -/

/-- Libdrm record `drmModeFB2` (declared in `xf86drmMode.h`): the framebuffer
identifier, the per-plane GEM handles, and the remaining metadata. -/
structure drmModeFB2 where
  fb_id : Nat
  width : Nat
  height : Nat
  pixel_format : Nat
  modifier : Nat
  flags : Nat
  handles : List Nat
  pitches : List Nat
  offsets : List Nat
deriving DecidableEq, Repr

/-- Entry `struct liftoff_layer_property`: `name` is the C string held in
`char name[DRM_PROP_NAME_LEN]`. -/
structure liftoff_layer_property where
  name : List Char
  value : Nat
  prev_value : Nat
deriving DecidableEq, Repr

/-- Record `struct liftoff_layer`, without the links to its output. -/
structure liftoff_layer where
  props : List liftoff_layer_property
  force_composition : Bool
  plane : Option Nat
  candidate_planes : List Nat
  current_priority : Int
  pending_priority : Int
  changed : Bool
  fb_info : drmModeFB2
  prev_fb_info : drmModeFB2
deriving DecidableEq, Repr

/-- Record `struct liftoff_rect`. -/
structure liftoff_rect where
  x : Int
  y : Int
  width : Int
  height : Int
deriving DecidableEq, Repr

/-- Field `layer->props_len`. -/
def liftoff_layer.props_len (layer : liftoff_layer) : Nat := layer.props.length

/-- Field `layer->output->device->planes_cap`, the length of the
candidate-plane array. -/
def liftoff_layer.planes_cap (layer : liftoff_layer) : Nat := layer.candidate_planes.length

/-- Value of `errno.h`: `EINVAL`. -/
def EINVAL : Int := 22

/-- Value of `errno.h`: `ENOMEM`. -/
def ENOMEM : Int := 12

/-- The property name `"CRTC_ID"`. -/
def CRTC_ID : List Char := ['C', 'R', 'T', 'C', '_', 'I', 'D']

/-- The property name `"FB_ID"`. -/
def FB_ID : List Char := ['F', 'B', '_', 'I', 'D']

/-- The property name `"alpha"`. -/
def alpha : List Char := ['a', 'l', 'p', 'h', 'a']

/-- The property name `"CRTC_X"`. -/
def CRTC_X : List Char := ['C', 'R', 'T', 'C', '_', 'X']

/-- The property name `"CRTC_Y"`. -/
def CRTC_Y : List Char := ['C', 'R', 'T', 'C', '_', 'Y']

/-- The property name `"CRTC_W"`. -/
def CRTC_W : List Char := ['C', 'R', 'T', 'C', '_', 'W']

/-- The property name `"CRTC_H"`. -/
def CRTC_H : List Char := ['C', 'R', 'T', 'C', '_', 'H']

/-- An all-zero `drmModeFB2`, as left by `calloc`. -/
def drmModeFB2.zero : drmModeFB2 :=
  { fb_id := 0, width := 0, height := 0, pixel_format := 0, modifier := 0, flags := 0,
    handles := [0, 0, 0, 0], pitches := [0, 0, 0, 0], offsets := [0, 0, 0, 0] }

/-- The layer that `liftoff_layer_create` builds with `calloc`: no property,
every flag false, every candidate slot `0`. -/
def liftoff_layer.create (planes_cap : Nat) : liftoff_layer :=
  { props := [], force_composition := false, plane := none,
    candidate_planes := List.replicate planes_cap 0,
    current_priority := 0, pending_priority := 0, changed := false,
    fb_info := drmModeFB2.zero, prev_fb_info := drmModeFB2.zero }

/-! ## The property store -/

/-- The loop of `layer_get_property`: the least index `i` with
`strcmp(props[i].name, name) == 0`. -/
def find_property (name : List Char) : List liftoff_layer_property → Option Nat
  | [] => none
  | p :: ps => if p.name = name then some 0 else (find_property name ps).map (· + 1)

/-- Function `layer_get_property`, as the index of the entry it points to
(`none` is `NULL`). -/
def layer_get_property_index (layer : liftoff_layer) (name : List Char) : Option Nat :=
  find_property name layer.props

/-- Function `layer_get_property`, as the entry it points to (`none` is `NULL`). -/
def layer_get_property (layer : liftoff_layer) (name : List Char) :
    Option liftoff_layer_property :=
  (layer_get_property_index layer name).bind (fun i => layer.props[i]?)

/-- The assignment `prop->value = value` through the pointer `&props[i]`. -/
def write_value (props : List liftoff_layer_property) (i : Nat) (value : Nat) :
    List liftoff_layer_property :=
  match props[i]? with
  | some p => props.set i { p with value := value }
  | none => props

/-- Function `liftoff_layer_set_property`. `DRM_PROP_NAME_LEN` is the size of
the `name` array (a libdrm constant), `realloc_ok` tells whether `realloc`
succeeds when it is called. Returns the `int` result and the layer afterwards.
`strncpy` after `memset` stores the first `DRM_PROP_NAME_LEN - 1` characters. -/
def liftoff_layer_set_property (DRM_PROP_NAME_LEN : Nat) (realloc_ok : Bool)
    (layer : liftoff_layer) (name : List Char) (value : Nat) : Int × liftoff_layer :=
  if name = CRTC_ID then
    (-EINVAL, layer)
  else
    let found : Option (Nat × liftoff_layer) :=
      match layer_get_property_index layer name with
      | some i => some (i, layer)
      | none =>
        if realloc_ok then
          let prop : liftoff_layer_property :=
            { name := name.take (DRM_PROP_NAME_LEN - 1), value := 0, prev_value := 0 }
          some (layer.props.length,
            { layer with props := layer.props ++ [prop], changed := true })
        else
          none
    match found with
    | none => (-ENOMEM, layer)
    | some (i, layer) =>
      let layer := { layer with props := write_value layer.props i value }
      let layer :=
        if name = FB_ID ∧ layer.force_composition = true then
          { layer with force_composition := false, changed := true }
        else
          layer
      (0, layer)

/-- Function `liftoff_layer_unset_property`: the last live entry is copied over
the removed one, then the last slot is dropped. -/
def liftoff_layer_unset_property (layer : liftoff_layer) (name : List Char) : liftoff_layer :=
  match layer_get_property_index layer name with
  | none => layer
  | some i =>
    let last := layer.props.length - 1
    let props :=
      match layer.props[last]? with
      | some l => if i ≠ last then layer.props.set i l else layer.props
      | none => layer.props
    { layer with props := props.take last, changed := true }

/-- Function `liftoff_layer_set_fb_composited`; the result of the inner
`liftoff_layer_set_property` is ignored, as in the source. -/
def liftoff_layer_set_fb_composited (DRM_PROP_NAME_LEN : Nat) (realloc_ok : Bool)
    (layer : liftoff_layer) : liftoff_layer :=
  if layer.force_composition = true then
    layer
  else
    let layer := (liftoff_layer_set_property DRM_PROP_NAME_LEN realloc_ok layer FB_ID 0).2
    { layer with force_composition := true, changed := true }

/-- Function `layer_mark_clean`. -/
def layer_mark_clean (layer : liftoff_layer) : liftoff_layer :=
  { layer with
    changed := false
    prev_fb_info := layer.fb_info
    props := layer.props.map (fun p => { p with prev_value := p.value }) }

/-! ## Visibility -/

/-- Function `layer_has_fb`. -/
def layer_has_fb (layer : liftoff_layer) : Bool :=
  match layer_get_property layer FB_ID with
  | some fb_id_prop => decide (fb_id_prop.value ≠ 0)
  | none => false

/-- Function `layer_is_visible`. -/
def layer_is_visible (layer : liftoff_layer) : Bool :=
  let alpha_prop := layer_get_property layer alpha
  if (match alpha_prop with
      | some p => decide (p.value = 0)
      | none => false) = true then
    false
  else if layer.force_composition = true then true
  else layer_has_fb layer

/-- Function `liftoff_layer_needs_composition`. -/
def liftoff_layer_needs_composition (layer : liftoff_layer) : Bool :=
  if ¬ layer_is_visible layer = true then false
  else layer.plane.isNone

/-! ## Geometry -/

/-- A mathematical integer reduced to the `int` it wraps to (two's complement,
32 bits). -/
def wrap_int (z : Int) : Int := (z + 2 ^ 31) % 2 ^ 32 - 2 ^ 31

/-- The value of a property read into an `int` field, `0` when the property is
missing. -/
def prop_as_int (prop : Option liftoff_layer_property) : Int :=
  match prop with
  | some p => wrap_int (p.value : Int)
  | none => 0

/-- Function `layer_get_rect`. -/
def layer_get_rect (layer : liftoff_layer) : liftoff_rect :=
  let x_prop := layer_get_property layer CRTC_X
  let y_prop := layer_get_property layer CRTC_Y
  let w_prop := layer_get_property layer CRTC_W
  let h_prop := layer_get_property layer CRTC_H
  { x := prop_as_int x_prop, y := prop_as_int y_prop,
    width := prop_as_int w_prop, height := prop_as_int h_prop }

/-- Function `layer_intersects`. -/
def layer_intersects (a b : liftoff_layer) : Bool :=
  if ¬ layer_is_visible a = true ∨ ¬ layer_is_visible b = true then
    false
  else
    let ra := layer_get_rect a
    let rb := layer_get_rect b
    decide (ra.x < wrap_int (rb.x + rb.width)) && decide (ra.y < wrap_int (rb.y + rb.height)) &&
      decide (wrap_int (ra.x + ra.width) > rb.x) && decide (wrap_int (ra.y + ra.height) > rb.y)

/-! ## The candidate-plane array -/

/-- Function `liftoff_layer_is_candidate_plane`, on the id of the plane. -/
def liftoff_layer_is_candidate_plane (layer : liftoff_layer) (plane_id : Nat) : Bool :=
  layer.candidate_planes.any (fun c => c == plane_id)

/-- The loop of `layer_add_candidate_plane` from index `i` on, over the slots
not yet visited: `none` when the id is met (the early `return`), else the final
`empty_slot` (`none` inside is `-1`). -/
def add_candidate_scan (plane_id : Nat) :
    List Nat → Nat → Option Nat → Option (Option Nat)
  | [], _, empty_slot => some empty_slot
  | c :: cs, i, empty_slot =>
    if c = plane_id then none
    else if empty_slot.isNone ∧ c = 0 then add_candidate_scan plane_id cs (i + 1) (some i)
    else add_candidate_scan plane_id cs (i + 1) empty_slot

/-- Function `layer_add_candidate_plane`, on the id of the plane; `none` is the
failure of `assert(empty_slot >= 0)`. -/
def layer_add_candidate_plane (layer : liftoff_layer) (plane_id : Nat) : Option liftoff_layer :=
  match add_candidate_scan plane_id layer.candidate_planes 0 none with
  | none => some layer
  | some none => none
  | some (some empty_slot) =>
    some { layer with candidate_planes := layer.candidate_planes.set empty_slot plane_id }

/-- Function `layer_reset_candidate_planes`. -/
def layer_reset_candidate_planes (layer : liftoff_layer) : liftoff_layer :=
  { layer with candidate_planes := List.replicate layer.planes_cap 0 }

/-! ## Specification vocabulary -/

/-- The first entry of a list of entries whose name is `name`. -/
def lookup (ps : List liftoff_layer_property) (name : List Char) :
    Option liftoff_layer_property :=
  ps.find? (fun p => decide (p.name = name))

/-- The stored names of a layer are pairwise distinct. -/
def names_unique (layer : liftoff_layer) : Prop :=
  (layer.props.map (fun p => p.name)).Nodup

instance (layer : liftoff_layer) : Decidable (names_unique layer) := by
  unfold names_unique; infer_instance

/-- The point `(px, py)` lies in the half-open rectangle
`[x, x + width) x [y, y + height)`. -/
def rect_contains (r : liftoff_rect) (px py : Int) : Prop :=
  r.x ≤ px ∧ px < r.x + r.width ∧ r.y ≤ py ∧ py < r.y + r.height

/-! ## Sequences of calls on the property store -/

/-- A call on the property store of a layer: `liftoff_layer_set_property` with
`realloc` succeeding, or `liftoff_layer_unset_property`. -/
inductive prop_call where
  | set (name : List Char) (value : Nat)
  | unset (name : List Char)
deriving DecidableEq, Repr

/-- The property name a call is about. -/
def prop_call.name : prop_call → List Char
  | .set name _ => name
  | .unset name => name

/-- The layer after one call. -/
def apply_prop_call (DRM_PROP_NAME_LEN : Nat) (layer : liftoff_layer) :
    prop_call → liftoff_layer
  | .set name value => (liftoff_layer_set_property DRM_PROP_NAME_LEN true layer name value).2
  | .unset name => liftoff_layer_unset_property layer name

/-- The layer after a sequence of calls, first call first. -/
def apply_prop_calls (DRM_PROP_NAME_LEN : Nat) (layer : liftoff_layer)
    (calls : List prop_call) : liftoff_layer :=
  calls.foldl (apply_prop_call DRM_PROP_NAME_LEN) layer

/-- The last call of the sequence that is about `name`, if any. -/
def last_call_on (name : List Char) : List prop_call → Option prop_call
  | [] => none
  | c :: cs =>
    match last_call_on name cs with
    | some d => some d
    | none => if c.name = name then some c else none

/-! ## Sequences of calls on a layer -/

/-- A call on a layer: `liftoff_layer_set_property` (with the outcome of
`realloc`), `liftoff_layer_unset_property`, `liftoff_layer_set_fb_composited`
(with the outcome of `realloc`) or `layer_mark_clean`. -/
inductive layer_call where
  | set_property (realloc_ok : Bool) (name : List Char) (value : Nat)
  | unset_property (name : List Char)
  | set_fb_composited (realloc_ok : Bool)
  | mark_clean
deriving DecidableEq, Repr

/-- The layer after one call. -/
def apply_layer_call (DRM_PROP_NAME_LEN : Nat) (layer : liftoff_layer) :
    layer_call → liftoff_layer
  | .set_property realloc_ok name value =>
    (liftoff_layer_set_property DRM_PROP_NAME_LEN realloc_ok layer name value).2
  | .unset_property name => liftoff_layer_unset_property layer name
  | .set_fb_composited realloc_ok =>
    liftoff_layer_set_fb_composited DRM_PROP_NAME_LEN realloc_ok layer
  | .mark_clean => layer_mark_clean layer

/-- The layer after a sequence of calls, first call first. -/
def apply_layer_calls (DRM_PROP_NAME_LEN : Nat) (layer : liftoff_layer)
    (calls : List layer_call) : liftoff_layer :=
  calls.foldl (apply_layer_call DRM_PROP_NAME_LEN) layer

/-! ## Concrete inputs -/

/-- A name of 32 characters, one more than a `name` array of 32 bytes holds. -/
def long_name : List Char := List.replicate 32 'a'

/-- The first 31 characters of `long_name`. -/
def long_name_stored : List Char := List.replicate 31 'a'

/-- The layer reached from a fresh one by two calls
`liftoff_layer_set_property(long_name, _)`: each call appends an entry, both
stored under `long_name_stored`. -/
def layer_two_long_sets : liftoff_layer :=
  apply_prop_calls 32 (liftoff_layer.create 1)
    [prop_call.set long_name 1, prop_call.set long_name 2]


/-- The layer reached from a fresh one by `liftoff_layer_set_property(alpha, 0)`
then `liftoff_layer_set_fb_composited`: fully transparent and forced to
composition. -/
def transparent_forced_layer : liftoff_layer :=
  apply_layer_calls 32 (liftoff_layer.create 1)
    [layer_call.set_property true alpha 0, layer_call.set_fb_composited true]

/-- The layer reached from a fresh one by `liftoff_layer_set_property(FB_ID, 7)`
then `liftoff_layer_set_property(alpha, 0)`. -/
def transparent_fb_layer : liftoff_layer :=
  apply_layer_calls 32 (liftoff_layer.create 1)
    [layer_call.set_property true FB_ID 7, layer_call.set_property true alpha 0]

/-- The layer reached from a fresh one by `liftoff_layer_set_fb_composited`. -/
def forced_layer : liftoff_layer :=
  apply_layer_calls 32 (liftoff_layer.create 1) [layer_call.set_fb_composited true]

/-- The layer reached from a fresh one by `liftoff_layer_set_fb_composited`
then `liftoff_layer_unset_property(FB_ID)`: forced to composition, without
`FB_ID`. -/
def forced_layer_without_fb : liftoff_layer :=
  apply_layer_calls 32 (liftoff_layer.create 1)
    [layer_call.set_fb_composited true, layer_call.unset_property FB_ID]

/-- A fresh layer given `FB_ID = 1` and the rectangle `x, y, width, height`. -/
def layer_with_rect (x y width height : Nat) : liftoff_layer :=
  apply_prop_calls 32 (liftoff_layer.create 1)
    [prop_call.set FB_ID 1, prop_call.set CRTC_X x, prop_call.set CRTC_Y y,
      prop_call.set CRTC_W width, prop_call.set CRTC_H height]

/-- A fresh layer given `FB_ID = 1`, `CRTC_X = 5` and `CRTC_Y = 5` only: its
width and height read as 0. -/
def layer_point_5_5 : liftoff_layer :=
  apply_prop_calls 32 (liftoff_layer.create 1)
    [prop_call.set FB_ID 1, prop_call.set CRTC_X 5, prop_call.set CRTC_Y 5]

/-! ## Priority -/

/-- Function `layer_update_priority`; `log_priority` only writes to the log.
The increment of the `int` field wraps. -/
def layer_update_priority (layer : liftoff_layer) (make_current : Bool) : liftoff_layer :=
  let prop := layer_get_property layer FB_ID
  let layer :=
    match prop with
    | some p =>
      if p.prev_value ≠ p.value then
        { layer with pending_priority := wrap_int (layer.pending_priority + 1) }
      else layer
    | none => layer
  if make_current = true then
    { layer with current_priority := layer.pending_priority, pending_priority := 0 }
  else layer

/-- The value that the `FB_ID` entry of a layer recorded at the last
`layer_mark_clean`, its `prev_value`; a layer without `FB_ID` entry counts as
0, the `prev_value` that `liftoff_layer_set_property` gives a new entry. -/
def fb_id_at_last_clean (layer : liftoff_layer) : Nat :=
  match layer_get_property layer FB_ID with
  | some p => p.prev_value
  | none => 0

/-- The `FB_ID` entry of the layer, if any, has the value it had at the last
`layer_mark_clean`. -/
def fb_id_unchanged (layer : liftoff_layer) : Prop :=
  ∀ p, layer_get_property layer FB_ID = some p → p.prev_value = p.value

/-- One cycle: `liftoff_layer_set_property(layer, "FB_ID", fb)` (allocation
succeeding), then `layer_update_priority(layer, false)`, then
`layer_mark_clean(layer)`. -/
def priority_cycle (DRM_PROP_NAME_LEN : Nat) (layer : liftoff_layer) (fb : Nat) :
    liftoff_layer :=
  layer_mark_clean
    (layer_update_priority (liftoff_layer_set_property DRM_PROP_NAME_LEN true layer FB_ID fb).2
      false)

/-- The layer after `n` consecutive cycles, cycle number `i` (from 0) setting
`FB_ID` to `fbs i`. -/
def run_priority_cycles (DRM_PROP_NAME_LEN : Nat) (layer : liftoff_layer) (fbs : Nat → Nat) :
    Nat → liftoff_layer
  | 0 => layer
  | n + 1 =>
    priority_cycle DRM_PROP_NAME_LEN (run_priority_cycles DRM_PROP_NAME_LEN layer fbs n) (fbs n)

/-- Framebuffer ids that alternate between 1 and 2. -/
def alternating_fbs (i : Nat) : Nat := i % 2 + 1

/-- A call that took the layer from `before` to `after` added a property entry,
removed a property entry, or changed the value of `force_composition`. -/
def call_marks_change (before after : liftoff_layer) : Prop :=
  before.props_len < after.props_len ∨ after.props_len < before.props_len ∨
    after.force_composition ≠ before.force_composition

/-- At least one call of the sequence, applied in order from `layer`, added a
property entry, removed a property entry, or changed the value of
`force_composition`. -/
def some_call_marks_change (DRM_PROP_NAME_LEN : Nat) :
    liftoff_layer → List layer_call → Prop
  | _, [] => False
  | layer, c :: cs =>
    call_marks_change layer (apply_layer_call DRM_PROP_NAME_LEN layer c) ∨
      some_call_marks_change DRM_PROP_NAME_LEN (apply_layer_call DRM_PROP_NAME_LEN layer c) cs

/-! ## The framebuffer-info cache -/

/-- A call to libdrm made by `layer_cache_fb_info`, with its argument. -/
inductive kernel_call where
  | drmModeGetFB2 (fb_id : Nat)
  | drmCloseBufferHandle (handle : Nat)
deriving DecidableEq, Repr

/-- What `drmModeGetFB2` returns: the record it allocated, or `NULL` with the
value it left in `errno`. -/
inductive fetch_outcome where
  | fb (fb_info : drmModeFB2)
  | null (errno : Int)
deriving DecidableEq, Repr

/-- What `layer_cache_fb_info` returns and does: its `int` result, the layer
afterwards, and the calls it made to libdrm, in order. -/
structure cache_fb_info_result where
  ret : Int
  layer : liftoff_layer
  calls : List kernel_call
deriving DecidableEq, Repr

/-- The handle-closing loop of `layer_cache_fb_info` from index `i` on, over the
entries `handles[i], handles[i + 1], ...` not yet visited, with `iterations`
iterations left: the entries afterwards and the close calls made.
`drmCloseBufferHandle i h` is the result of the call made at index `i`. After a
close that returned 0 the later entries equal to the handle are zeroed, then
the entry itself; after a failed close the loop goes on without zeroing. -/
def close_handles_from (drmCloseBufferHandle : Nat → Nat → Int) :
    Nat → Nat → List Nat → List Nat × List kernel_call
  | 0, _, handles => (handles, [])
  | _ + 1, _, [] => ([], [])
  | iterations + 1, i, h :: rest =>
    if h = 0 then
      let r := close_handles_from drmCloseBufferHandle iterations (i + 1) rest
      (h :: r.1, r.2)
    else if drmCloseBufferHandle i h ≠ 0 then
      let r := close_handles_from drmCloseBufferHandle iterations (i + 1) rest
      (h :: r.1, kernel_call.drmCloseBufferHandle h :: r.2)
    else
      let r := close_handles_from drmCloseBufferHandle iterations (i + 1)
        (rest.map (fun x => if x = h then 0 else x))
      (0 :: r.1, kernel_call.drmCloseBufferHandle h :: r.2)

/-- The whole handle-closing loop, `num_planes` being the length of `handles`. -/
def close_handles (drmCloseBufferHandle : Nat → Nat → Int) (handles : List Nat) :
    List Nat × List kernel_call :=
  close_handles_from drmCloseBufferHandle handles.length 0 handles

/-- Function `layer_cache_fb_info`. `drmModeGetFB2 id` is the outcome of the
fetch for the `uint32_t` id, `drmCloseBufferHandle i h` the result of the close
call made at loop index `i`. -/
def layer_cache_fb_info (drmModeGetFB2 : Nat → fetch_outcome)
    (drmCloseBufferHandle : Nat → Nat → Int) (layer : liftoff_layer) : cache_fb_info_result :=
  let fb_id_prop := layer_get_property layer FB_ID
  match fb_id_prop with
  | none => { ret := 0, layer := { layer with fb_info := drmModeFB2.zero }, calls := [] }
  | some p =>
    if p.value = 0 then
      { ret := 0, layer := { layer with fb_info := drmModeFB2.zero }, calls := [] }
    else if layer.fb_info.fb_id = p.value then
      { ret := 0, layer := layer, calls := [] }
    else
      match drmModeGetFB2 (p.value % 2 ^ 32) with
      | fetch_outcome.null errno =>
        if errno = EINVAL then
          { ret := 0, layer := layer, calls := [kernel_call.drmModeGetFB2 (p.value % 2 ^ 32)] }
        else
          { ret := -errno, layer := layer,
            calls := [kernel_call.drmModeGetFB2 (p.value % 2 ^ 32)] }
      | fetch_outcome.fb fb_info =>
        let closed := close_handles drmCloseBufferHandle fb_info.handles
        { ret := 0, layer := { layer with fb_info := { fb_info with handles := closed.1 } },
          calls := kernel_call.drmModeGetFB2 (p.value % 2 ^ 32) :: closed.2 }

/-- The number of `drmModeGetFB2` calls in a list of calls. -/
def fetch_count (calls : List kernel_call) : Nat :=
  calls.countP (fun c =>
    match c with
    | kernel_call.drmModeGetFB2 _ => true
    | kernel_call.drmCloseBufferHandle _ => false)

/-- The number of `drmCloseBufferHandle` calls on `handle` in a list of calls. -/
def close_count (handle : Nat) (calls : List kernel_call) : Nat :=
  calls.count (kernel_call.drmCloseBufferHandle handle)

/-- A `drmModeFB2` record with the given framebuffer id and handles. -/
def fb_record (fb_id : Nat) (handles : List Nat) : drmModeFB2 :=
  { drmModeFB2.zero with fb_id := fb_id, handles := handles }

/-- A `drmModeGetFB2` that fails with `EINVAL`, as on an old kernel. -/
def fetch_einval : Nat → fetch_outcome := fun _ => fetch_outcome.null EINVAL

/-- A `drmModeGetFB2` that returns the record of the requested framebuffer with
the given handles. -/
def fetch_handles (handles : List Nat) : Nat → fetch_outcome :=
  fun fb_id => fetch_outcome.fb (fb_record fb_id handles)

/-- A `drmCloseBufferHandle` that always succeeds. -/
def close_ok : Nat → Nat → Int := fun _ _ => 0

/-- A `drmCloseBufferHandle` whose call at loop index 0 fails and whose other
calls succeed. -/
def close_first_fails : Nat → Nat → Int := fun i _ => if i = 0 then -1 else 0

/-! ## Outputs, planes and the layer lifecycle -/

/-- Record `struct liftoff_plane`, reduced to its id and its `layer` pointer:
the address of the layer it is assigned to (`none` is `NULL`). -/
structure liftoff_plane where
  id : Nat
  layer : Option Nat
deriving DecidableEq, Repr

/-- Record `struct liftoff_output` together with what a layer reaches through
it: `planes` are the planes of the device, a pointer to a plane being its index
there, `planes_cap` is `device->planes_cap`, `layers` is the list
`output->layers` in order, each layer with its address, and
`composition_layer` is the address of the composition layer. -/
structure liftoff_output where
  planes : List liftoff_plane
  planes_cap : Nat
  composition_layer : Option Nat
  layers : List (Nat × liftoff_layer)
  layers_changed : Bool
deriving DecidableEq, Repr

/-- Modelled from the spec: `liftoff_list_remove` (`list.c`, not among the
sources) "unlinks" the layer "from the Output's sequence": the element with
this address leaves the list, the others keep their order. -/
def liftoff_list_remove (layers : List (Nat × liftoff_layer)) (addr : Nat) :
    List (Nat × liftoff_layer) :=
  layers.eraseP (fun e => decide (e.1 = addr))

/-- Modelled from the spec: `liftoff_list_insert(output->layers.prev, ...)`
(`list.c`, not among the sources): the new layer is "appended to its layer
sequence". -/
def liftoff_list_insert (layers : List (Nat × liftoff_layer)) (addr : Nat)
    (layer : liftoff_layer) : List (Nat × liftoff_layer) :=
  layers ++ [(addr, layer)]

/-- The assignment `layer->plane->layer = NULL` through the pointer to the
plane. -/
def clear_plane_layer (planes : List liftoff_plane) (plane : Nat) : List liftoff_plane :=
  match planes[plane]? with
  | some pl => planes.set plane { pl with layer := none }
  | none => planes

/-- Function `liftoff_layer_create`. `calloc_layer` is the address that the
first `calloc` returns (`none` is `NULL`), `calloc_candidates_ok` tells whether
the second one succeeds. Returns the pointer to the layer and the output
afterwards. -/
def liftoff_layer_create (calloc_layer : Option Nat) (calloc_candidates_ok : Bool)
    (output : liftoff_output) : Option Nat × liftoff_output :=
  match calloc_layer with
  | none => (none, output)
  | some addr =>
    if calloc_candidates_ok = false then
      (none, output)
    else
      (some addr,
        { output with
          layers := liftoff_list_insert output.layers addr
            (liftoff_layer.create output.planes_cap)
          layers_changed := true })

/-- Function `liftoff_layer_destroy`, on the pointer to the layer (`none` is
`NULL`); a pointer that is not a layer of the output is outside the model and
leaves the output as it is. -/
def liftoff_layer_destroy (output : liftoff_output) (layer : Option Nat) : liftoff_output :=
  match layer with
  | none => output
  | some addr =>
    match output.layers.find? (fun e => decide (e.1 = addr)) with
    | none => output
    | some (_, l) =>
      let output := { output with layers_changed := true }
      let output :=
        match l.plane with
        | some plane => { output with planes := clear_plane_layer output.planes plane }
        | none => output
      let output :=
        if output.composition_layer = some addr then
          { output with composition_layer := none }
        else output
      { output with layers := liftoff_list_remove output.layers addr }

/-- An output with two planes and three layers at addresses 10, 20 and 30: the
layer at 20 is assigned plane 1 and is the composition layer. -/
def example_output : liftoff_output :=
  { planes := [{ id := 31, layer := none }, { id := 32, layer := some 20 }],
    planes_cap := 2,
    composition_layer := some 20,
    layers := [(10, liftoff_layer.create 2),
      (20, { liftoff_layer.create 2 with plane := some 1 }),
      (30, liftoff_layer.create 2)],
    layers_changed := false }

/-! ## Sequences of calls on the candidate-plane array -/

/-- A call on the candidate-plane array of a layer: `layer_add_candidate_plane`
for the plane with this id, or `layer_reset_candidate_planes`. -/
inductive candidate_call where
  | add (plane_id : Nat)
  | reset
deriving DecidableEq, Repr

/-- The layer after one call; `none` when `assert(empty_slot >= 0)` fails. -/
def apply_candidate_call (layer : liftoff_layer) : candidate_call → Option liftoff_layer
  | .add plane_id => layer_add_candidate_plane layer plane_id
  | .reset => some (layer_reset_candidate_planes layer)

/-- The layer after a sequence of calls, first call first; `none` as soon as an
assertion fails. -/
def apply_candidate_calls : liftoff_layer → List candidate_call → Option liftoff_layer
  | layer, [] => some layer
  | layer, c :: cs =>
    match apply_candidate_call layer c with
    | some next => apply_candidate_calls next cs
    | none => none

/-- The candidate array holds each non-zero id at most once, and only ids of the
set `ids`. -/
def candidates_within (ids : Finset Nat) (layer : liftoff_layer) : Prop :=
  (layer.candidate_planes.filter (fun c => decide (c ≠ 0))).Nodup ∧
    ∀ c ∈ layer.candidate_planes, c ≠ 0 → c ∈ ids


/-! ## Lemmas on the property store -/

theorem find_property_none {name : List Char} {ps : List liftoff_layer_property} :
    find_property name ps = none ↔ ∀ p ∈ ps, p.name ≠ name := by
  induction ps with
  | nil => simp [find_property]
  | cons q qs ih =>
    by_cases h : q.name = name
    · simp [find_property, h]
    · simp [find_property, h, ih]

theorem find_property_some {name : List Char} {ps : List liftoff_layer_property} {i : Nat}
    (h : find_property name ps = some i) :
    ∃ p, ps[i]? = some p ∧ p.name = name ∧ lookup ps name = some p := by
  induction ps generalizing i with
  | nil => simp [find_property] at h
  | cons q qs ih =>
    by_cases hq : q.name = name
    · simp [find_property, hq] at h
      subst h
      exact ⟨q, by simp, hq, by simp [lookup, hq]⟩
    · simp [find_property, hq] at h
      obtain ⟨j, hj, rfl⟩ := h
      obtain ⟨p, hp1, hp2, hp3⟩ := ih hj
      exact ⟨p, by simpa using hp1, hp2, by simpa [lookup, hq] using hp3⟩

theorem find_property_lt {name : List Char} {ps : List liftoff_layer_property} {i : Nat}
    (h : find_property name ps = some i) : i < ps.length := by
  obtain ⟨p, hp, _⟩ := find_property_some h
  exact (List.getElem?_eq_some.1 hp).1

theorem layer_get_property_eq_lookup (layer : liftoff_layer) (name : List Char) :
    layer_get_property layer name = lookup layer.props name := by
  unfold layer_get_property layer_get_property_index
  cases h : find_property name layer.props with
  | none =>
    have hn := find_property_none.1 h
    have hl : lookup layer.props name = none := by
      simpa [lookup] using hn
    simp [hl]
  | some i =>
    obtain ⟨p, hp1, _, hp3⟩ := find_property_some h
    simp [hp1, hp3]

theorem write_value_cons_zero (q : liftoff_layer_property) (qs : List liftoff_layer_property)
    (v : Nat) : write_value (q :: qs) 0 v = { q with value := v } :: qs := by
  simp [write_value]

theorem write_value_cons_succ (q : liftoff_layer_property) (qs : List liftoff_layer_property)
    (j v : Nat) : write_value (q :: qs) (j + 1) v = q :: write_value qs j v := by
  simp only [write_value, List.getElem?_cons_succ]
  cases qs[j]? <;> simp

theorem write_value_names (ps : List liftoff_layer_property) (i v : Nat) :
    (write_value ps i v).map (fun p => p.name) = ps.map (fun p => p.name) := by
  induction ps generalizing i with
  | nil => simp [write_value]
  | cons q qs ih =>
    cases i with
    | zero => simp [write_value_cons_zero]
    | succ j => simp [write_value_cons_succ, ih]

theorem write_value_length (ps : List liftoff_layer_property) (i v : Nat) :
    (write_value ps i v).length = ps.length := by
  have h := congrArg List.length (write_value_names ps i v)
  simpa using h

theorem lookup_write_value {name : List Char} {ps : List liftoff_layer_property} {i : Nat}
    (h : find_property name ps = some i) (v : Nat) (m : List Char) :
    lookup (write_value ps i v) m =
      if m = name then (lookup ps name).map (fun p => { p with value := v })
      else lookup ps m := by
  induction ps generalizing i with
  | nil => simp [find_property] at h
  | cons q qs ih =>
    by_cases hq : q.name = name
    · simp [find_property, hq] at h
      subst h
      rw [write_value_cons_zero]
      by_cases hm : m = name
      · subst hm
        simp [lookup, hq]
      · have hqm : ¬ q.name = m := fun e => hm (e.symm.trans hq)
        simp [lookup, hm, hqm]
    · simp [find_property, hq] at h
      obtain ⟨j, hj, rfl⟩ := h
      rw [write_value_cons_succ]
      have := ih hj
      by_cases hm : m = name
      · subst hm
        simp only [lookup, if_true] at this ⊢
        simp [hq, this]
      · simp only [lookup, hm, if_false] at this ⊢
        by_cases hqm : q.name = m
        · simp [hqm]
        · simp [hqm, this]

theorem write_value_append_length (ps : List liftoff_layer_property)
    (e : liftoff_layer_property) (v : Nat) :
    write_value (ps ++ [e]) ps.length v = ps ++ [{ e with value := v }] := by
  induction ps with
  | nil => simp [write_value]
  | cons q qs ih => simp [write_value_cons_succ, ih]

theorem lookup_append_singleton (ps : List liftoff_layer_property)
    (e : liftoff_layer_property) (m : List Char) :
    lookup (ps ++ [e]) m = (lookup ps m).or (if e.name = m then some e else none) := by
  simp only [lookup, List.find?_append]
  congr 1
  by_cases h : e.name = m <;> simp [h]

/-- Overwriting index `i` with the last element and dropping the last slot
removes index `i`, up to the order of the elements. -/
theorem swap_remove_perm {α : Type} (ps : List α) (i : Nat) (hi : i < ps.length) (l : α)
    (hl : ps[ps.length - 1]? = some l) :
    List.Perm ((if i ≠ ps.length - 1 then ps.set i l else ps).take (ps.length - 1))
      (ps.eraseIdx i) := by
  rcases List.eq_nil_or_concat ps with h | ⟨init, l2, h⟩
  · subst h; simp at hi
  · subst h
    simp only [List.concat_eq_append, List.length_append, List.length_singleton,
      Nat.add_sub_cancel, List.getElem?_concat_length, Option.some.injEq] at hl ⊢
    subst hl
    simp only [List.concat_eq_append, List.length_append, List.length_singleton] at hi
    by_cases hlast : i = init.length
    · subst hlast
      simp [List.eraseIdx_append_of_length_le]
    · have hlt : i < init.length := by omega
      simp only [ne_eq, hlast, not_false_eq_true, if_true]
      rw [List.set_append, if_pos hlt, List.take_left' (List.length_set _ _ _),
        List.eraseIdx_append_of_lt_length hlt,
        List.set_eq_take_append_cons_drop, if_pos hlt, List.eraseIdx_eq_take_drop_succ]
      exact List.perm_middle.trans (List.perm_append_singleton _ _).symm

theorem lookup_eq_none {ps : List liftoff_layer_property} {m : List Char} :
    lookup ps m = none ↔ ∀ p ∈ ps, p.name ≠ m := by
  simp [lookup]

theorem lookup_eq_some_iff {ps : List liftoff_layer_property}
    (hnd : (ps.map (fun p => p.name)).Nodup) (m : List Char) (p : liftoff_layer_property) :
    lookup ps m = some p ↔ p ∈ ps ∧ p.name = m := by
  induction ps with
  | nil => simp [lookup]
  | cons q qs ih =>
    rw [List.map_cons, List.nodup_cons] at hnd
    by_cases hq : q.name = m
    · have hnot : ∀ r ∈ qs, r.name ≠ m := by
        intro r hr e
        exact hnd.1 (List.mem_map.2 ⟨r, hr, e.trans hq.symm⟩)
      simp only [lookup, List.find?_cons, hq, decide_True, Option.some.injEq, List.mem_cons]
      constructor
      · rintro rfl
        exact ⟨Or.inl rfl, hq⟩
      · rintro ⟨h1 | h1, h2⟩
        · exact h1.symm
        · exact absurd h2 (hnot p h1)
    · have := ih hnd.2
      simp only [lookup, List.find?_cons, hq, decide_False, List.mem_cons] at this ⊢
      rw [this]
      constructor
      · rintro ⟨h1, h2⟩
        exact ⟨Or.inr h1, h2⟩
      · rintro ⟨h1 | h1, h2⟩
        · subst h1
          exact absurd h2 hq
        · exact ⟨h1, h2⟩

theorem lookup_perm {ps qs : List liftoff_layer_property} (h : List.Perm ps qs)
    (hnd : (ps.map (fun p => p.name)).Nodup) (m : List Char) :
    lookup ps m = lookup qs m := by
  have hnd2 : (qs.map (fun p => p.name)).Nodup := (h.map _).nodup_iff.1 hnd
  apply Option.ext
  intro p
  rw [Option.mem_def, Option.mem_def, lookup_eq_some_iff hnd, lookup_eq_some_iff hnd2, h.mem_iff]

theorem lookup_eraseIdx {name : List Char} {ps : List liftoff_layer_property} {i : Nat}
    (hnd : (ps.map (fun p => p.name)).Nodup) (h : find_property name ps = some i)
    (m : List Char) :
    lookup (ps.eraseIdx i) m = if m = name then none else lookup ps m := by
  induction ps generalizing i with
  | nil => simp [find_property] at h
  | cons q qs ih =>
    rw [List.map_cons, List.nodup_cons] at hnd
    by_cases hq : q.name = name
    · simp [find_property, hq] at h
      subst h
      rw [List.eraseIdx_cons_zero]
      by_cases hm : m = name
      · subst hm
        rw [if_pos rfl, lookup_eq_none]
        intro r hr e
        exact hnd.1 (List.mem_map.2 ⟨r, hr, e.trans hq.symm⟩)
      · have hqm : ¬ q.name = m := fun e => hm (e.symm.trans hq)
        simp [lookup, hm, hqm]
    · simp [find_property, hq] at h
      obtain ⟨j, hj, rfl⟩ := h
      rw [List.eraseIdx_cons_succ]
      have := ih hnd.2 hj
      by_cases hm : m = name
      · subst hm
        simp only [lookup, if_true] at this ⊢
        simp [hq, this]
      · simp only [lookup, hm, if_false] at this ⊢
        by_cases hqm : q.name = m
        · simp [hqm]
        · simp [hqm, this]

theorem set_property_found {N : Nat} {ok : Bool} {layer : liftoff_layer} {name : List Char}
    {i : Nat} (hn : name ≠ CRTC_ID) (h : find_property name layer.props = some i) (v : Nat) :
    (liftoff_layer_set_property N ok layer name v).1 = 0 ∧
    (liftoff_layer_set_property N ok layer name v).2.props = write_value layer.props i v := by
  unfold liftoff_layer_set_property
  simp only [hn, if_false, layer_get_property_index, h]
  constructor
  · trivial
  · split <;> rfl

theorem set_property_new {N : Nat} {layer : liftoff_layer} {name : List Char}
    (hn : name ≠ CRTC_ID) (h : find_property name layer.props = none) (v : Nat) :
    (liftoff_layer_set_property N true layer name v).1 = 0 ∧
    (liftoff_layer_set_property N true layer name v).2.props =
      layer.props ++ [{ name := name.take (N - 1), value := v, prev_value := 0 }] := by
  unfold liftoff_layer_set_property
  simp only [hn, if_false, layer_get_property_index, h, if_true]
  constructor
  · trivial
  · simp only [write_value_append_length]
    split <;> rfl

theorem set_property_enomem {N : Nat} {layer : liftoff_layer} {name : List Char}
    (hn : name ≠ CRTC_ID) (h : find_property name layer.props = none) (v : Nat) :
    liftoff_layer_set_property N false layer name v = (-ENOMEM, layer) := by
  unfold liftoff_layer_set_property
  simp [hn, layer_get_property_index, h]

theorem unset_property_absent {layer : liftoff_layer} {name : List Char}
    (h : find_property name layer.props = none) :
    liftoff_layer_unset_property layer name = layer := by
  unfold liftoff_layer_unset_property
  simp [layer_get_property_index, h]

theorem unset_property_perm {layer : liftoff_layer} {name : List Char} {i : Nat}
    (h : find_property name layer.props = some i) :
    List.Perm (liftoff_layer_unset_property layer name).props (layer.props.eraseIdx i) := by
  unfold liftoff_layer_unset_property
  have hi := find_property_lt h
  have hl : layer.props[layer.props.length - 1]? =
      some (layer.props[layer.props.length - 1]) :=
    List.getElem?_eq_getElem (by omega)
  simp only [layer_get_property_index, h, hl]
  exact swap_remove_perm layer.props i hi _ hl

theorem get_set_property_same {N : Nat} (layer : liftoff_layer) {name : List Char}
    (hn : name ≠ CRTC_ID) (hlen : name.length < N) (v : Nat) :
    ∃ p, layer_get_property (liftoff_layer_set_property N true layer name v).2 name = some p ∧
      p.name = name ∧ p.value = v := by
  rw [layer_get_property_eq_lookup]
  cases h : find_property name layer.props with
  | none =>
    have htake : name.take (N - 1) = name := List.take_of_length_le (by omega)
    have hl : lookup layer.props name = none :=
      lookup_eq_none.2 (find_property_none.1 h)
    rw [(set_property_new hn h v).2, lookup_append_singleton, hl, htake]
    exact ⟨{ name := name, value := v, prev_value := 0 }, by simp, rfl, rfl⟩
  | some i =>
    obtain ⟨p, _, hp2, hp3⟩ := find_property_some h
    rw [(set_property_found hn h v).2, lookup_write_value h, if_pos rfl, hp3]
    exact ⟨_, rfl, hp2, rfl⟩

theorem get_set_property_crtc_id (N : Nat) (ok : Bool) (layer : liftoff_layer) (v : Nat) :
    liftoff_layer_set_property N ok layer CRTC_ID v = (-EINVAL, layer) := by
  simp [liftoff_layer_set_property]

theorem get_set_property_other {N : Nat} {layer : liftoff_layer} {name m : List Char}
    (hlen : name.length < N) (hm : m ≠ name) (v : Nat) :
    layer_get_property (liftoff_layer_set_property N true layer name v).2 m =
      layer_get_property layer m := by
  by_cases hn : name = CRTC_ID
  · subst hn
    rw [get_set_property_crtc_id]
  rw [layer_get_property_eq_lookup, layer_get_property_eq_lookup]
  cases h : find_property name layer.props with
  | none =>
    have htake : name.take (N - 1) = name := List.take_of_length_le (by omega)
    rw [(set_property_new hn h v).2, lookup_append_singleton, htake]
    simp [Ne.symm hm]
  | some i =>
    rw [(set_property_found hn h v).2, lookup_write_value h, if_neg hm]

theorem names_unique_set_property {N : Nat} {layer : liftoff_layer} {name : List Char}
    (hlen : name.length < N) (hu : names_unique layer) (v : Nat) :
    names_unique (liftoff_layer_set_property N true layer name v).2 := by
  by_cases hn : name = CRTC_ID
  · subst hn
    rw [get_set_property_crtc_id]
    exact hu
  unfold names_unique at hu ⊢
  cases h : find_property name layer.props with
  | none =>
    have htake : name.take (N - 1) = name := List.take_of_length_le (by omega)
    rw [(set_property_new hn h v).2, htake, List.map_append, List.map_singleton]
    refine List.Nodup.append hu (List.nodup_singleton _) ?_
    intro x hx hx2
    rw [List.mem_singleton] at hx2
    subst hx2
    obtain ⟨p, hp, hpn⟩ := List.mem_map.1 hx
    exact find_property_none.1 h p hp hpn
  | some i =>
    rw [(set_property_found hn h v).2, write_value_names]
    exact hu

theorem names_unique_unset_property {layer : liftoff_layer} (hu : names_unique layer)
    (name : List Char) : names_unique (liftoff_layer_unset_property layer name) := by
  cases h : find_property name layer.props with
  | none => rw [unset_property_absent h]; exact hu
  | some i =>
    unfold names_unique at hu ⊢
    have hp := (unset_property_perm h).map (fun p => p.name)
    rw [hp.nodup_iff]
    exact hu.sublist ((List.eraseIdx_sublist _ _).map _)

theorem get_unset_property {layer : liftoff_layer} (hu : names_unique layer)
    (name m : List Char) :
    layer_get_property (liftoff_layer_unset_property layer name) m =
      if m = name then none else layer_get_property layer m := by
  rw [layer_get_property_eq_lookup, layer_get_property_eq_lookup]
  cases h : find_property name layer.props with
  | none =>
    rw [unset_property_absent h]
    by_cases hm : m = name
    · subst hm
      rw [if_pos rfl]
      exact lookup_eq_none.2 (find_property_none.1 h)
    · rw [if_neg hm]
  | some i =>
    have hu2 := names_unique_unset_property hu name
    rw [lookup_perm (unset_property_perm h) hu2, lookup_eraseIdx hu h]

theorem names_unique_apply_prop_call {N : Nat} {layer : liftoff_layer} {c : prop_call}
    (hlen : c.name.length < N) (hu : names_unique layer) :
    names_unique (apply_prop_call N layer c) := by
  cases c with
  | set name v => exact names_unique_set_property hlen hu v
  | unset name => exact names_unique_unset_property hu name

theorem get_apply_prop_call_other {N : Nat} {layer : liftoff_layer} {c : prop_call}
    {m : List Char} (hlen : c.name.length < N) (hu : names_unique layer) (hm : c.name ≠ m) :
    layer_get_property (apply_prop_call N layer c) m = layer_get_property layer m := by
  cases c with
  | set name v => exact get_set_property_other hlen (Ne.symm hm) v
  | unset name =>
    simp only [prop_call.name] at hm
    simp only [apply_prop_call, get_unset_property hu]
    rw [if_neg (Ne.symm hm)]

/-- What `layer_get_property` returns for `name` after a sequence of calls with
short names on a layer with distinct names, by the last call on `name`. -/
theorem get_apply_prop_calls {N : Nat} (name : List Char) (hn : name ≠ CRTC_ID)
    (calls : List prop_call) :
    ∀ layer : liftoff_layer, names_unique layer → (∀ c ∈ calls, c.name.length < N) →
      match last_call_on name calls with
      | some (.set _ v) =>
        ∃ p, layer_get_property (apply_prop_calls N layer calls) name = some p ∧ p.value = v
      | some (.unset _) => layer_get_property (apply_prop_calls N layer calls) name = none
      | none =>
        layer_get_property (apply_prop_calls N layer calls) name =
          layer_get_property layer name := by
  induction calls with
  | nil => intro layer _ _; simp [last_call_on, apply_prop_calls]
  | cons c cs ih =>
    intro layer hu hshort
    have hc : c.name.length < N := hshort c (List.mem_cons_self _ _)
    have ih2 := ih (apply_prop_call N layer c) (names_unique_apply_prop_call hc hu)
      (fun d hd => hshort d (List.mem_cons_of_mem _ hd))
    have hrun : apply_prop_calls N layer (c :: cs) =
        apply_prop_calls N (apply_prop_call N layer c) cs := rfl
    rw [hrun]
    cases hl : last_call_on name cs with
    | some d =>
      rw [hl] at ih2
      simp only [last_call_on, hl]
      cases d <;> exact ih2
    | none =>
      rw [hl] at ih2
      simp only [last_call_on, hl]
      simp only at ih2
      by_cases hcn : c.name = name
      · rw [if_pos hcn, ih2]
        cases c with
        | set m v =>
          simp only [prop_call.name] at hcn hc
          subst hcn
          obtain ⟨p, hp, _, hv⟩ := get_set_property_same layer hn hc v
          exact ⟨p, hp, hv⟩
        | unset m =>
          simp only [prop_call.name] at hcn
          subst hcn
          simp [apply_prop_call, get_unset_property hu]
      · rw [if_neg hcn, ih2]
        exact get_apply_prop_call_other hc hu hcn


/-! ## Lemmas on the reserved name -/

theorem take_ne_crtc_id {N : Nat} (hN : 8 < N) {name : List Char} (hn : name ≠ CRTC_ID) :
    name.take (N - 1) ≠ CRTC_ID := by
  intro h
  have hlen := congrArg List.length h
  rw [List.length_take] at hlen
  have h7 : CRTC_ID.length = 7 := rfl
  have hle : name.length ≤ N - 1 := by omega
  rw [List.take_of_length_le hle] at h
  exact hn h

theorem set_property_stored_names (N : Nat) (ok : Bool) (layer : liftoff_layer)
    (name : List Char) (v : Nat) :
    (liftoff_layer_set_property N ok layer name v).2.props.map (fun p => p.name) =
        layer.props.map (fun p => p.name) ∨
    (name ≠ CRTC_ID ∧
      (liftoff_layer_set_property N ok layer name v).2.props.map (fun p => p.name) =
        layer.props.map (fun p => p.name) ++ [name.take (N - 1)]) := by
  by_cases hn : name = CRTC_ID
  · subst hn
    rw [get_set_property_crtc_id]
    exact Or.inl rfl
  cases h : find_property name layer.props with
  | some i =>
    left
    rw [(set_property_found hn h v).2, write_value_names]
  | none =>
    cases ok with
    | false =>
      left
      rw [set_property_enomem hn h]
    | true =>
      right
      refine ⟨hn, ?_⟩
      rw [(set_property_new hn h v).2]
      simp

theorem unset_property_subset (layer : liftoff_layer) (name : List Char) :
    ∀ p ∈ (liftoff_layer_unset_property layer name).props, p ∈ layer.props := by
  intro p hp
  cases h : find_property name layer.props with
  | none => rw [unset_property_absent h] at hp; exact hp
  | some i =>
    exact (List.eraseIdx_sublist _ _).subset ((unset_property_perm h).subset hp)

theorem set_fb_composited_props (N : Nat) (ok : Bool) (layer : liftoff_layer) :
    (liftoff_layer_set_fb_composited N ok layer).props = layer.props ∨
    (liftoff_layer_set_fb_composited N ok layer).props =
      (liftoff_layer_set_property N ok layer FB_ID 0).2.props := by
  unfold liftoff_layer_set_fb_composited
  by_cases hf : layer.force_composition = true
  · left; simp [hf]
  · right; simp [hf]

theorem no_crtc_id_set_property {N : Nat} (hN : 8 < N) (ok : Bool) {layer : liftoff_layer}
    (name : List Char) (v : Nat)
    (h : CRTC_ID ∉ layer.props.map (fun p => p.name)) :
    CRTC_ID ∉ (liftoff_layer_set_property N ok layer name v).2.props.map (fun p => p.name) := by
  rcases set_property_stored_names N ok layer name v with e | ⟨hn, e⟩
  · rw [e]; exact h
  · rw [e, List.mem_append, List.mem_singleton]
    rintro (h1 | h1)
    · exact h h1
    · exact take_ne_crtc_id hN hn h1.symm

theorem no_crtc_id_apply_layer_call {N : Nat} (hN : 8 < N) {layer : liftoff_layer}
    (c : layer_call) (h : CRTC_ID ∉ layer.props.map (fun p => p.name)) :
    CRTC_ID ∉ (apply_layer_call N layer c).props.map (fun p => p.name) := by
  cases c with
  | set_property ok name v => exact no_crtc_id_set_property hN ok name v h
  | unset_property name =>
    intro hmem
    obtain ⟨p, hp, hpn⟩ := List.mem_map.1 hmem
    exact h (List.mem_map.2 ⟨p, unset_property_subset layer name p hp, hpn⟩)
  | set_fb_composited ok =>
    simp only [apply_layer_call]
    rcases set_fb_composited_props N ok layer with e | e
    · rw [e]; exact h
    · rw [e]; exact no_crtc_id_set_property hN ok FB_ID 0 h
  | mark_clean =>
    simpa [apply_layer_call, layer_mark_clean, Function.comp_def] using h

theorem no_crtc_id_apply_layer_calls {N : Nat} (hN : 8 < N) (calls : List layer_call) :
    ∀ layer : liftoff_layer, CRTC_ID ∉ layer.props.map (fun p => p.name) →
      CRTC_ID ∉ (apply_layer_calls N layer calls).props.map (fun p => p.name) := by
  induction calls with
  | nil => intro layer h; exact h
  | cons c cs ih =>
    intro layer h
    exact ih _ (no_crtc_id_apply_layer_call hN c h)

theorem get_none_iff (layer : liftoff_layer) (name : List Char) :
    layer_get_property layer name = none ↔ name ∉ layer.props.map (fun p => p.name) := by
  rw [layer_get_property_eq_lookup, lookup_eq_none]
  constructor
  · intro h hmem
    obtain ⟨p, hp, hpn⟩ := List.mem_map.1 hmem
    exact h p hp hpn
  · intro h p hp hpn
    exact h (List.mem_map.2 ⟨p, hp, hpn⟩)

/-! ## Lemmas on the flags -/

theorem set_property_flags_of_forced {N : Nat} {ok : Bool} {layer : liftoff_layer} (v : Nat)
    (hok : (liftoff_layer_set_property N ok layer FB_ID v).1 = 0)
    (hforce : layer.force_composition = true) :
    (liftoff_layer_set_property N ok layer FB_ID v).2.force_composition = false ∧
    (liftoff_layer_set_property N ok layer FB_ID v).2.changed = true := by
  have hn : FB_ID ≠ CRTC_ID := by decide
  cases h : find_property FB_ID layer.props with
  | some i =>
    unfold liftoff_layer_set_property
    simp [hn, layer_get_property_index, h, hforce]
  | none =>
    cases ok with
    | false =>
      rw [set_property_enomem hn h] at hok
      simp [ENOMEM] at hok
    | true =>
      unfold liftoff_layer_set_property
      simp [hn, layer_get_property_index, h, hforce]

theorem set_fb_composited_of_forced {N : Nat} {ok : Bool} {layer : liftoff_layer}
    (hforce : layer.force_composition = true) :
    liftoff_layer_set_fb_composited N ok layer = layer := by
  simp [liftoff_layer_set_fb_composited, hforce]

theorem set_fb_composited_of_not_forced {N : Nat} {ok : Bool} {layer : liftoff_layer}
    (hforce : layer.force_composition = false) :
    liftoff_layer_set_fb_composited N ok layer =
      { (liftoff_layer_set_property N ok layer FB_ID 0).2 with
        force_composition := true, changed := true } := by
  simp [liftoff_layer_set_fb_composited, hforce]

theorem set_fb_composited_force (N : Nat) (ok : Bool) (layer : liftoff_layer) :
    (liftoff_layer_set_fb_composited N ok layer).force_composition = true := by
  cases hforce : layer.force_composition with
  | true => rw [set_fb_composited_of_forced hforce]; exact hforce
  | false => rw [set_fb_composited_of_not_forced hforce]

/-! ## Lemmas on rectangles -/

theorem wrap_int_range (z : Int) : -2 ^ 31 ≤ wrap_int z ∧ wrap_int z < 2 ^ 31 := by
  unfold wrap_int
  constructor <;> omega

theorem wrap_int_of_range {z : Int} (hlo : -2 ^ 31 ≤ z) (hhi : z < 2 ^ 31) : wrap_int z = z := by
  unfold wrap_int
  omega

theorem prop_as_int_range (prop : Option liftoff_layer_property) :
    -2 ^ 31 ≤ prop_as_int prop ∧ prop_as_int prop < 2 ^ 31 := by
  cases prop with
  | none => simp [prop_as_int]
  | some p => exact wrap_int_range _

theorem layer_get_rect_range (layer : liftoff_layer) :
    -2 ^ 31 ≤ (layer_get_rect layer).x ∧ -2 ^ 31 ≤ (layer_get_rect layer).y := by
  exact ⟨(prop_as_int_range _).1, (prop_as_int_range _).1⟩

theorem layer_intersects_of_visible {a b : liftoff_layer} (ha : layer_is_visible a = true)
    (hb : layer_is_visible b = true) :
    layer_intersects a b = true ↔
      (layer_get_rect a).x < wrap_int ((layer_get_rect b).x + (layer_get_rect b).width) ∧
      (layer_get_rect a).y < wrap_int ((layer_get_rect b).y + (layer_get_rect b).height) ∧
      wrap_int ((layer_get_rect a).x + (layer_get_rect a).width) > (layer_get_rect b).x ∧
      wrap_int ((layer_get_rect a).y + (layer_get_rect a).height) > (layer_get_rect b).y := by
  unfold layer_intersects
  simp [ha, hb, and_assoc]

theorem layer_intersects_of_hidden {a b : liftoff_layer}
    (h : layer_is_visible a = false ∨ layer_is_visible b = false) :
    layer_intersects a b = false := by
  unfold layer_intersects
  rcases h with h | h <;> simp [h]

theorem overlap_iff_common_point (ra rb : liftoff_rect)
    (haw : 0 < ra.width) (hah : 0 < ra.height) (hbw : 0 < rb.width) (hbh : 0 < rb.height) :
    (ra.x < rb.x + rb.width ∧ ra.y < rb.y + rb.height ∧
      ra.x + ra.width > rb.x ∧ ra.y + ra.height > rb.y) ↔
    ∃ px py, rect_contains ra px py ∧ rect_contains rb px py := by
  unfold rect_contains
  constructor
  · rintro ⟨h1, h2, h3, h4⟩
    refine ⟨if ra.x ≤ rb.x then rb.x else ra.x, if ra.y ≤ rb.y then rb.y else ra.y, ?_⟩
    split <;> split <;> omega
  · rintro ⟨px, py, ⟨h1, h2, h3, h4⟩, ⟨h5, h6, h7, h8⟩⟩
    omega

/-! ## Lemmas on the candidate-plane array -/

theorem is_candidate_iff (layer : liftoff_layer) (q : Nat) :
    liftoff_layer_is_candidate_plane layer q = true ↔ q ∈ layer.candidate_planes := by
  simp [liftoff_layer_is_candidate_plane]

theorem add_candidate_scan_some (p : Nat) (cs : List Nat) (i k : Nat) :
    add_candidate_scan p cs i (some k) = if p ∈ cs then none else some (some k) := by
  induction cs generalizing i with
  | nil => simp [add_candidate_scan]
  | cons c rest ih =>
    by_cases hc : c = p
    · simp [add_candidate_scan, hc]
    · have hpc : ¬ p = c := fun e => hc e.symm
      simp [add_candidate_scan, hc, hpc, ih]

theorem add_candidate_scan_none (p : Nat) (cs : List Nat) (i : Nat) :
    add_candidate_scan p cs i none =
      if p ∈ cs then none
      else if 0 ∈ cs then some (some (i + cs.indexOf 0))
      else some none := by
  induction cs generalizing i with
  | nil => simp [add_candidate_scan]
  | cons c rest ih =>
    by_cases hc : c = p
    · simp [add_candidate_scan, hc]
    · have hpc : ¬ p = c := fun e => hc e.symm
      by_cases h0 : c = 0
      · subst h0
        simp [add_candidate_scan, hc, hpc, add_candidate_scan_some]
      · have h0c : ¬ 0 = c := fun e => h0 e.symm
        simp only [add_candidate_scan, hc, if_false, h0, and_false, ih, List.mem_cons, hpc,
          false_or, h0c, List.indexOf_cons_ne _ h0]
        by_cases hp : p ∈ rest
        · simp [hp]
        · by_cases hz : 0 ∈ rest
          · simp [hp, hz]; omega
          · simp [hp, hz]

/-- What `layer_add_candidate_plane` does, by cases on the array. -/
theorem add_candidate_plane_eq (layer : liftoff_layer) (p : Nat) :
    layer_add_candidate_plane layer p =
      if p ∈ layer.candidate_planes then some layer
      else if 0 ∈ layer.candidate_planes then
        some { layer with
          candidate_planes :=
            layer.candidate_planes.set (layer.candidate_planes.indexOf 0) p }
      else none := by
  unfold layer_add_candidate_plane
  rw [add_candidate_scan_none]
  by_cases hp : p ∈ layer.candidate_planes
  · simp [hp]
  · by_cases hz : 0 ∈ layer.candidate_planes
    · simp [hp, hz]
    · simp [hp, hz]

theorem mem_set_indexOf_zero {cs : List Nat} (hz : 0 ∈ cs) (p : Nat) :
    p ∈ cs.set (cs.indexOf 0) p :=
  List.mem_set cs _ (List.indexOf_lt_length.2 hz) p

theorem mem_set_of_mem_of_ne_zero {cs : List Nat} (hz : 0 ∈ cs) (p : Nat) {q : Nat}
    (hq : q ≠ 0) (hmem : q ∈ cs) : q ∈ cs.set (cs.indexOf 0) p := by
  obtain ⟨j, hj⟩ := List.mem_iff_getElem?.1 hmem
  refine List.mem_iff_getElem?.2 ⟨j, ?_⟩
  have hk : cs[cs.indexOf 0]? = some 0 := by
    rw [← List.get?_eq_getElem?]
    exact List.indexOf_get? hz
  have hne : cs.indexOf 0 ≠ j := by
    intro e
    rw [e, hj] at hk
    exact hq (Option.some.inj hk)
  rw [List.getElem?_set, if_neg hne]
  exact hj

/-! ## Lemmas on priorities -/

theorem wrap_int_succ_wrap_int (z : Int) : wrap_int (wrap_int z + 1) = wrap_int (z + 1) := by
  unfold wrap_int
  omega

theorem get_mark_clean (layer : liftoff_layer) (name : List Char) :
    layer_get_property (layer_mark_clean layer) name =
      (layer_get_property layer name).map (fun p => { p with prev_value := p.value }) := by
  rw [layer_get_property_eq_lookup, layer_get_property_eq_lookup]
  simp only [layer_mark_clean, lookup]
  induction layer.props with
  | nil => rfl
  | cons q qs ih =>
    by_cases hq : q.name = name
    · simp [hq]
    · simp [hq, ih]

theorem get_update_priority (layer : liftoff_layer) (b : Bool) (name : List Char) :
    layer_get_property (layer_update_priority layer b) name = layer_get_property layer name := by
  rw [layer_get_property_eq_lookup, layer_get_property_eq_lookup]
  unfold layer_update_priority
  cases layer_get_property layer FB_ID with
  | none => cases b <;> rfl
  | some p => by_cases hp : p.prev_value = p.value <;> cases b <;> simp [hp]

theorem update_priority_of_unchanged {layer : liftoff_layer} (h : fb_id_unchanged layer) :
    layer_update_priority layer false = layer ∧
    (layer_update_priority layer true).current_priority = layer.pending_priority ∧
    (layer_update_priority layer true).pending_priority = 0 := by
  unfold layer_update_priority
  cases hg : layer_get_property layer FB_ID with
  | none => simp
  | some p => simp [h p hg]

theorem update_priority_of_changed {layer : liftoff_layer} {p : liftoff_layer_property}
    (hg : layer_get_property layer FB_ID = some p) (hp : p.prev_value ≠ p.value) :
    (layer_update_priority layer false).pending_priority =
      wrap_int (layer.pending_priority + 1) := by
  unfold layer_update_priority
  simp [hg, hp]

theorem update_priority_step (layer : liftoff_layer) :
    ((layer_update_priority layer false).pending_priority = layer.pending_priority ∨
      (layer_update_priority layer false).pending_priority =
        wrap_int (layer.pending_priority + 1)) ∧
    ((layer_update_priority layer true).current_priority = layer.pending_priority ∨
      (layer_update_priority layer true).current_priority =
        wrap_int (layer.pending_priority + 1)) ∧
    (layer_update_priority layer true).pending_priority = 0 ∧
    (layer_update_priority layer false).current_priority = layer.current_priority := by
  unfold layer_update_priority
  cases hg : layer_get_property layer FB_ID with
  | none => simp
  | some p => by_cases hp : p.prev_value = p.value <;> simp [hp]

theorem set_property_priorities (N : Nat) (ok : Bool) (layer : liftoff_layer)
    (name : List Char) (v : Nat) :
    (liftoff_layer_set_property N ok layer name v).2.pending_priority = layer.pending_priority ∧
    (liftoff_layer_set_property N ok layer name v).2.current_priority =
      layer.current_priority := by
  unfold liftoff_layer_set_property
  by_cases hn : name = CRTC_ID
  · simp [hn]
  · simp only [hn, if_false]
    cases layer_get_property_index layer name with
    | some i => simp only; split <;> exact ⟨rfl, rfl⟩
    | none =>
      cases ok with
      | false => exact ⟨rfl, rfl⟩
      | true => simp only [if_true]; split <;> exact ⟨rfl, rfl⟩

/-- The entry of `name` right after a successful `liftoff_layer_set_property`:
the new value, and the previous value it had (0 for a new entry). -/
theorem get_set_property_entry {N : Nat} (layer : liftoff_layer) {name : List Char}
    (hn : name ≠ CRTC_ID) (hlen : name.length < N) (v : Nat) :
    layer_get_property (liftoff_layer_set_property N true layer name v).2 name =
      some { name := name, value := v,
             prev_value := match layer_get_property layer name with
               | some q => q.prev_value
               | none => 0 } := by
  rw [layer_get_property_eq_lookup, layer_get_property_eq_lookup]
  cases h : find_property name layer.props with
  | none =>
    have htake : name.take (N - 1) = name := List.take_of_length_le (by omega)
    have hl : lookup layer.props name = none :=
      lookup_eq_none.2 (find_property_none.1 h)
    rw [(set_property_new hn h v).2, lookup_append_singleton, hl, htake]
    simp
  | some i =>
    obtain ⟨p, _, hp2, hp3⟩ := find_property_some h
    rw [(set_property_found hn h v).2, lookup_write_value h, if_pos rfl, hp3]
    simp [hp2]

theorem priority_cycle_spec {N : Nat} (hN : 5 < N) (layer : liftoff_layer) (v : Nat)
    (hv : v ≠ fb_id_at_last_clean layer) :
    (priority_cycle N layer v).pending_priority = wrap_int (layer.pending_priority + 1) ∧
    fb_id_at_last_clean (priority_cycle N layer v) = v ∧
    fb_id_unchanged (priority_cycle N layer v) := by
  have hn : FB_ID ≠ CRTC_ID := by decide
  have hlen : FB_ID.length < N := hN
  have hset := get_set_property_entry layer hn hlen v
  have hprev : (match layer_get_property layer FB_ID with
      | some q => q.prev_value
      | none => 0) = fb_id_at_last_clean layer := rfl
  rw [hprev] at hset
  have hpri := (set_property_priorities N true layer FB_ID v).1
  have hget : layer_get_property (priority_cycle N layer v) FB_ID =
      some { name := FB_ID, value := v, prev_value := v } := by
    unfold priority_cycle
    rw [get_mark_clean, get_update_priority, hset]
    rfl
  refine ⟨?_, ?_, ?_⟩
  · unfold priority_cycle
    have h1 := update_priority_of_changed hset (Ne.symm hv)
    rw [hpri] at h1
    rw [← h1]
    rfl
  · unfold fb_id_at_last_clean
    rw [hget]
  · intro p hp
    rw [hget] at hp
    cases hp
    rfl

theorem run_priority_cycles_spec {N : Nat} (hN : 5 < N) (layer : liftoff_layer)
    (hpend : layer.pending_priority = 0) (fbs : Nat → Nat) (n : Nat)
    (hfirst : 0 < n → fbs 0 ≠ fb_id_at_last_clean layer)
    (hnext : ∀ i, i + 1 < n → fbs (i + 1) ≠ fbs i) :
    (run_priority_cycles N layer fbs n).pending_priority = wrap_int n ∧
    (0 < n → fb_id_at_last_clean (run_priority_cycles N layer fbs n) = fbs (n - 1) ∧
      fb_id_unchanged (run_priority_cycles N layer fbs n)) := by
  induction n with
  | zero =>
    refine ⟨?_, fun h => absurd h (by decide)⟩
    simp [run_priority_cycles, hpend, wrap_int]
  | succ k ih =>
    have ihk := ih (fun hk => hfirst (by omega)) (fun i hi => hnext i (by omega))
    have hv : fbs k ≠ fb_id_at_last_clean (run_priority_cycles N layer fbs k) := by
      rcases Nat.eq_zero_or_pos k with hk | hk
      · subst hk
        exact hfirst (by omega)
      · rw [(ihk.2 hk).1]
        have := hnext (k - 1) (by omega)
        rwa [Nat.sub_add_cancel hk] at this
    have hc := priority_cycle_spec hN (run_priority_cycles N layer fbs k) (fbs k) hv
    refine ⟨?_, fun _ => ⟨hc.2.1, hc.2.2⟩⟩
    show (priority_cycle N (run_priority_cycles N layer fbs k) (fbs k)).pending_priority = _
    rw [hc.1, ihk.1, wrap_int_succ_wrap_int]
    push_cast
    rfl

theorem current_priority_after_cycles {N : Nat} (hN : 5 < N) (layer : liftoff_layer)
    (hpend : layer.pending_priority = 0) (fbs : Nat → Nat) (n : Nat)
    (hfirst : 0 < n → fbs 0 ≠ fb_id_at_last_clean layer)
    (hnext : ∀ i, i + 1 < n → fbs (i + 1) ≠ fbs i)
    (hzero : n = 0 → fb_id_unchanged layer) :
    (layer_update_priority (run_priority_cycles N layer fbs n) true).current_priority =
      wrap_int n ∧
    (layer_update_priority (run_priority_cycles N layer fbs n) true).pending_priority = 0 := by
  have hrun := run_priority_cycles_spec hN layer hpend fbs n hfirst hnext
  have hun : fb_id_unchanged (run_priority_cycles N layer fbs n) := by
    rcases Nat.eq_zero_or_pos n with hn | hn
    · subst hn
      exact hzero rfl
    · exact (hrun.2 hn).2
  have hup := update_priority_of_unchanged hun
  exact ⟨hup.2.1.trans hrun.1, hup.2.2⟩

theorem fb_id_unchanged_mark_clean (layer : liftoff_layer) :
    fb_id_unchanged (layer_mark_clean layer) := by
  intro p hp
  rw [get_mark_clean] at hp
  cases hg : layer_get_property layer FB_ID with
  | none => rw [hg] at hp; cases hp
  | some q =>
    rw [hg] at hp
    cases hp
    rfl

/-! ## Lemmas on the `changed` flag -/

theorem set_property_fields_found (N : Nat) (ok : Bool) {layer : liftoff_layer}
    {name : List Char} {i : Nat} (hn : name ≠ CRTC_ID)
    (h : find_property name layer.props = some i) (v : Nat) :
    (liftoff_layer_set_property N ok layer name v).2.force_composition =
      (if name = FB_ID ∧ layer.force_composition = true then false
        else layer.force_composition) ∧
    (liftoff_layer_set_property N ok layer name v).2.changed =
      (if name = FB_ID ∧ layer.force_composition = true then true else layer.changed) ∧
    (liftoff_layer_set_property N ok layer name v).2.props.length = layer.props.length := by
  refine ⟨?_, ?_, ?_⟩
  · unfold liftoff_layer_set_property
    simp only [hn, if_false, layer_get_property_index, h]
    split <;> rfl
  · unfold liftoff_layer_set_property
    simp only [hn, if_false, layer_get_property_index, h]
    split <;> rfl
  · rw [(set_property_found hn h v).2, write_value_length]

theorem set_property_fields_new (N : Nat) {layer : liftoff_layer} {name : List Char}
    (hn : name ≠ CRTC_ID) (h : find_property name layer.props = none) (v : Nat) :
    (liftoff_layer_set_property N true layer name v).2.changed = true ∧
    (liftoff_layer_set_property N true layer name v).2.props.length =
      layer.props.length + 1 := by
  constructor
  · unfold liftoff_layer_set_property
    simp only [hn, if_false, layer_get_property_index, h, if_true]
    split <;> rfl
  · rw [(set_property_new hn h v).2]
    simp

theorem changed_set_property (N : Nat) (ok : Bool) (layer : liftoff_layer)
    (name : List Char) (v : Nat) :
    (liftoff_layer_set_property N ok layer name v).2.changed = true ↔
      layer.changed = true ∨
        call_marks_change layer (liftoff_layer_set_property N ok layer name v).2 := by
  unfold call_marks_change liftoff_layer.props_len
  by_cases hn : name = CRTC_ID
  · subst hn
    rw [get_set_property_crtc_id]
    simp
  cases h : find_property name layer.props with
  | some i =>
    obtain ⟨h1, h2, h3⟩ := set_property_fields_found N ok hn h v
    rw [h1, h2, h3]
    by_cases hc : name = FB_ID ∧ layer.force_composition = true
    · simp [hc]
    · simp [hc]
  | none =>
    cases ok with
    | false =>
      rw [set_property_enomem hn h]
      simp
    | true =>
      obtain ⟨h1, h2⟩ := set_property_fields_new N hn h v
      rw [h1, h2]
      simp

theorem changed_unset_property (layer : liftoff_layer) (name : List Char) :
    (liftoff_layer_unset_property layer name).changed = true ↔
      layer.changed = true ∨
        call_marks_change layer (liftoff_layer_unset_property layer name) := by
  unfold call_marks_change liftoff_layer.props_len
  cases h : find_property name layer.props with
  | none =>
    rw [unset_property_absent h]
    simp
  | some i =>
    have hi := find_property_lt h
    have hlen : (liftoff_layer_unset_property layer name).props.length =
        layer.props.length - 1 := by
      rw [(unset_property_perm h).length_eq, List.length_eraseIdx, if_pos hi]
    have hch : (liftoff_layer_unset_property layer name).changed = true := by
      unfold liftoff_layer_unset_property
      simp [layer_get_property_index, h]
    rw [hch, hlen]
    have : layer.props.length - 1 < layer.props.length := by omega
    simp [this]

theorem changed_set_fb_composited (N : Nat) (ok : Bool) (layer : liftoff_layer) :
    (liftoff_layer_set_fb_composited N ok layer).changed = true ↔
      layer.changed = true ∨
        call_marks_change layer (liftoff_layer_set_fb_composited N ok layer) := by
  unfold call_marks_change
  cases hf : layer.force_composition with
  | true =>
    rw [set_fb_composited_of_forced hf]
    simp [hf]
  | false =>
    rw [set_fb_composited_of_not_forced hf]
    simp [hf]

theorem changed_apply_layer_call (N : Nat) (layer : liftoff_layer) (c : layer_call)
    (hc : c ≠ layer_call.mark_clean) :
    (apply_layer_call N layer c).changed = true ↔
      layer.changed = true ∨ call_marks_change layer (apply_layer_call N layer c) := by
  cases c with
  | set_property ok name v => exact changed_set_property N ok layer name v
  | unset_property name => exact changed_unset_property layer name
  | set_fb_composited ok => exact changed_set_fb_composited N ok layer
  | mark_clean => exact absurd rfl hc

theorem changed_apply_layer_calls (N : Nat) (calls : List layer_call) :
    ∀ layer : liftoff_layer, (∀ c ∈ calls, c ≠ layer_call.mark_clean) →
      ((apply_layer_calls N layer calls).changed = true ↔
        layer.changed = true ∨ some_call_marks_change N layer calls) := by
  induction calls with
  | nil =>
    intro layer _
    simp [apply_layer_calls, some_call_marks_change]
  | cons c cs ih =>
    intro layer hcalls
    have hc := hcalls c (List.mem_cons_self _ _)
    have ih2 := ih (apply_layer_call N layer c) (fun d hd => hcalls d (List.mem_cons_of_mem _ hd))
    have hrun : apply_layer_calls N layer (c :: cs) =
        apply_layer_calls N (apply_layer_call N layer c) cs := rfl
    rw [hrun, ih2, changed_apply_layer_call N layer c hc]
    simp only [some_call_marks_change]
    tauto

theorem find_property_of_get {layer : liftoff_layer} {name : List Char}
    {p : liftoff_layer_property} (h : layer_get_property layer name = some p) :
    ∃ i, find_property name layer.props = some i := by
  unfold layer_get_property layer_get_property_index at h
  cases hf : find_property name layer.props with
  | none => rw [hf] at h; cases h
  | some i => exact ⟨i, rfl⟩

/-! ## Lemmas on the framebuffer-info cache -/

theorem get_congr_props {l1 l2 : liftoff_layer} (h : l1.props = l2.props) (name : List Char) :
    layer_get_property l1 name = layer_get_property l2 name := by
  rw [layer_get_property_eq_lookup, layer_get_property_eq_lookup, h]

theorem close_handles_from_mem (close : Nat → Nat → Int) (fuel : Nat) :
    ∀ (i : Nat) (hs : List Nat) (c : kernel_call), c ∈ (close_handles_from close fuel i hs).2 →
      ∃ h, c = kernel_call.drmCloseBufferHandle h ∧ h ≠ 0 ∧ h ∈ hs := by
  induction fuel with
  | zero => intro i hs c hc; simp [close_handles_from] at hc
  | succ k ih =>
    intro i hs c hc
    cases hs with
    | nil => simp [close_handles_from] at hc
    | cons x rest =>
      by_cases hx : x = 0
      · simp only [close_handles_from, hx, if_true] at hc
        obtain ⟨h, h1, h2, h3⟩ := ih _ _ c hc
        exact ⟨h, h1, h2, List.mem_cons_of_mem _ h3⟩
      · by_cases hr : close i x = 0
        · simp only [close_handles_from, hx, if_false, hr, ne_eq, not_true_eq_false,
            List.mem_cons] at hc
          rcases hc with hc | hc
          · exact ⟨x, hc, hx, List.mem_cons_self _ _⟩
          · obtain ⟨h, h1, h2, h3⟩ := ih _ _ c hc
            obtain ⟨y, hy, hyz⟩ := List.mem_map.1 h3
            by_cases hyx : y = x
            · rw [if_pos hyx] at hyz
              exact absurd hyz.symm h2
            · rw [if_neg hyx] at hyz
              subst hyz
              exact ⟨y, h1, h2, List.mem_cons_of_mem _ hy⟩
        · simp only [close_handles_from, hx, if_false, hr, ne_eq, not_false_eq_true, if_true,
            List.mem_cons] at hc
          rcases hc with hc | hc
          · exact ⟨x, hc, hx, List.mem_cons_self _ _⟩
          · obtain ⟨h, h1, h2, h3⟩ := ih _ _ c hc
            exact ⟨h, h1, h2, List.mem_cons_of_mem _ h3⟩

theorem mem_map_zero_of_ne {x h : Nat} {rest : List Nat} (hne : h ≠ x) (hmem : h ∈ rest) :
    h ∈ rest.map (fun y => if y = x then 0 else y) :=
  List.mem_map.2 ⟨h, hmem, by simp [hne]⟩

theorem close_handles_from_closes (close : Nat → Nat → Int) (fuel : Nat) :
    ∀ (i : Nat) (hs : List Nat) (h : Nat), hs.length ≤ fuel → h ∈ hs → h ≠ 0 →
      kernel_call.drmCloseBufferHandle h ∈ (close_handles_from close fuel i hs).2 := by
  induction fuel with
  | zero =>
    intro i hs h hlen hmem _
    have : hs = [] := List.length_eq_zero.1 (Nat.le_zero.1 hlen)
    subst this
    cases hmem
  | succ k ih =>
    intro i hs h hlen hmem h0
    cases hs with
    | nil => cases hmem
    | cons x rest =>
      have hlen2 : rest.length ≤ k := by simpa using hlen
      by_cases hx : x = 0
      · have hne : h ≠ x := by rw [hx]; exact h0
        have hrest : h ∈ rest := (List.mem_cons.1 hmem).resolve_left hne
        simp only [close_handles_from, hx, if_true]
        exact ih _ _ h hlen2 hrest h0
      · by_cases hhx : h = x
        · subst hhx
          by_cases hr : close i h = 0
          · simp [close_handles_from, hx, hr]
          · simp [close_handles_from, hx, hr]
        · have hrest : h ∈ rest := (List.mem_cons.1 hmem).resolve_left hhx
          by_cases hr : close i x = 0
          · simp only [close_handles_from, hx, if_false, hr, ne_eq, not_true_eq_false,
              List.mem_cons]
            right
            exact ih _ _ h (by simpa using hlen2) (mem_map_zero_of_ne hhx hrest) h0
          · simp only [close_handles_from, hx, if_false, hr, ne_eq, not_false_eq_true, if_true,
              List.mem_cons]
            right
            exact ih _ _ h hlen2 hrest h0

theorem indexOf_map_zero {x h : Nat} (hne : h ≠ x) (h0 : h ≠ 0) (rest : List Nat) :
    (rest.map (fun y => if y = x then 0 else y)).indexOf h = rest.indexOf h := by
  induction rest with
  | nil => rfl
  | cons y ys ih =>
    by_cases hy : y = h
    · subst hy
      simp [hne]
    · have hz : (if y = x then 0 else y) ≠ h := by
        by_cases hyx : y = x
        · rw [if_pos hyx]; exact Ne.symm h0
        · rw [if_neg hyx]; exact hy
      rw [List.map_cons, List.indexOf_cons_ne _ hz, List.indexOf_cons_ne _ hy, ih]

theorem close_handles_from_count_one (close : Nat → Nat → Int) (fuel : Nat) :
    ∀ (i : Nat) (hs : List Nat) (h : Nat), hs.length ≤ fuel → h ∈ hs → h ≠ 0 →
      close (i + hs.indexOf h) h = 0 →
      close_count h (close_handles_from close fuel i hs).2 = 1 := by
  induction fuel with
  | zero =>
    intro i hs h hlen hmem _ _
    have : hs = [] := List.length_eq_zero.1 (Nat.le_zero.1 hlen)
    subst this
    cases hmem
  | succ k ih =>
    intro i hs h hlen hmem h0 hfirst
    cases hs with
    | nil => cases hmem
    | cons x rest =>
      have hlen2 : rest.length ≤ k := by simpa using hlen
      by_cases hhx : x = h
      · subst hhx
        rw [List.indexOf_cons_self, Nat.add_zero] at hfirst
        have hnone : close_count x (close_handles_from close k (i + 1)
            (rest.map (fun y => if y = x then 0 else y))).2 = 0 := by
          unfold close_count
          rw [List.count_eq_zero]
          intro hc
          obtain ⟨h2, e, h20, hm⟩ := close_handles_from_mem close k _ _ _ hc
          cases e
          obtain ⟨y, _, hyz⟩ := List.mem_map.1 hm
          by_cases hyx : y = x
          · rw [if_pos hyx] at hyz
            exact h0 hyz.symm
          · rw [if_neg hyx] at hyz
            exact hyx hyz
        simp only [close_handles_from, h0, if_false, hfirst, ne_eq, not_true_eq_false]
        unfold close_count at hnone ⊢
        rw [List.count_cons_self, hnone]
      · have hne : h ≠ x := Ne.symm hhx
        have hrest : h ∈ rest := (List.mem_cons.1 hmem).resolve_left hne
        rw [List.indexOf_cons_ne _ hhx] at hfirst
        have hfirst2 : close (i + 1 + rest.indexOf h) h = 0 := by
          rw [← hfirst]
          congr 1
          omega
        have hcall : kernel_call.drmCloseBufferHandle x ≠ kernel_call.drmCloseBufferHandle h := by
          intro e
          cases e
          exact hhx rfl
        by_cases hx : x = 0
        · simp only [close_handles_from, hx, if_true]
          exact ih _ _ h hlen2 hrest h0 hfirst2
        · by_cases hr : close i x = 0
          · simp only [close_handles_from, hx, if_false, hr, ne_eq, not_true_eq_false]
            unfold close_count
            rw [List.count_cons_of_ne hcall.symm]
            have := ih (i + 1) (rest.map (fun y => if y = x then 0 else y)) h
              (by simpa using hlen2) (mem_map_zero_of_ne hne hrest) h0
              (by rw [indexOf_map_zero hne h0]; exact hfirst2)
            exact this
          · simp only [close_handles_from, hx, if_false, hr, ne_eq, not_false_eq_true, if_true]
            unfold close_count
            rw [List.count_cons_of_ne hcall.symm]
            exact ih _ _ h hlen2 hrest h0 hfirst2

theorem cache_fb_info_absent {fetch : Nat → fetch_outcome} {close : Nat → Nat → Int}
    {layer : liftoff_layer} (h : layer_get_property layer FB_ID = none) :
    layer_cache_fb_info fetch close layer =
      { ret := 0, layer := { layer with fb_info := drmModeFB2.zero }, calls := [] } := by
  unfold layer_cache_fb_info
  simp [h]

theorem cache_fb_info_zero {fetch : Nat → fetch_outcome} {close : Nat → Nat → Int}
    {layer : liftoff_layer} {p : liftoff_layer_property}
    (h : layer_get_property layer FB_ID = some p) (hv : p.value = 0) :
    layer_cache_fb_info fetch close layer =
      { ret := 0, layer := { layer with fb_info := drmModeFB2.zero }, calls := [] } := by
  unfold layer_cache_fb_info
  simp [h, hv]

theorem cache_fb_info_hit {fetch : Nat → fetch_outcome} {close : Nat → Nat → Int}
    {layer : liftoff_layer} {p : liftoff_layer_property}
    (h : layer_get_property layer FB_ID = some p) (hv : p.value ≠ 0)
    (hid : layer.fb_info.fb_id = p.value) :
    layer_cache_fb_info fetch close layer = { ret := 0, layer := layer, calls := [] } := by
  unfold layer_cache_fb_info
  simp [h, hv, hid]

theorem cache_fb_info_null {fetch : Nat → fetch_outcome} {close : Nat → Nat → Int}
    {layer : liftoff_layer} {p : liftoff_layer_property} {e : Int}
    (h : layer_get_property layer FB_ID = some p) (hv : p.value ≠ 0)
    (hid : layer.fb_info.fb_id ≠ p.value)
    (hf : fetch (p.value % 2 ^ 32) = fetch_outcome.null e) :
    layer_cache_fb_info fetch close layer =
      { ret := if e = EINVAL then 0 else -e, layer := layer,
        calls := [kernel_call.drmModeGetFB2 (p.value % 2 ^ 32)] } := by
  unfold layer_cache_fb_info
  simp only [h, hv, hid, if_false, hf]
  split <;> rfl

theorem cache_fb_info_fb {fetch : Nat → fetch_outcome} {close : Nat → Nat → Int}
    {layer : liftoff_layer} {p : liftoff_layer_property} {fb : drmModeFB2}
    (h : layer_get_property layer FB_ID = some p) (hv : p.value ≠ 0)
    (hid : layer.fb_info.fb_id ≠ p.value)
    (hf : fetch (p.value % 2 ^ 32) = fetch_outcome.fb fb) :
    layer_cache_fb_info fetch close layer =
      { ret := 0,
        layer := { layer with
          fb_info := { fb with handles := (close_handles close fb.handles).1 } },
        calls := kernel_call.drmModeGetFB2 (p.value % 2 ^ 32) ::
          (close_handles close fb.handles).2 } := by
  unfold layer_cache_fb_info
  simp only [h, hv, hid, if_false, hf]

theorem fetch_count_close_handles (close : Nat → Nat → Int) (hs : List Nat) :
    fetch_count (close_handles close hs).2 = 0 := by
  unfold fetch_count
  rw [List.countP_eq_zero]
  intro c hc
  obtain ⟨h, e, _, _⟩ := close_handles_from_mem close _ _ _ c hc
  subst e
  simp

theorem cache_fb_info_props (fetch : Nat → fetch_outcome) (close : Nat → Nat → Int)
    (layer : liftoff_layer) :
    (layer_cache_fb_info fetch close layer).layer.props = layer.props := by
  cases h : layer_get_property layer FB_ID with
  | none => rw [cache_fb_info_absent h]
  | some p =>
    by_cases hv : p.value = 0
    · rw [cache_fb_info_zero h hv]
    · by_cases hid : layer.fb_info.fb_id = p.value
      · rw [cache_fb_info_hit h hv hid]
      · cases hf : fetch (p.value % 2 ^ 32) with
        | null e => rw [cache_fb_info_null h hv hid hf]
        | fb fb => rw [cache_fb_info_fb h hv hid hf]

theorem cache_fb_info_fetch_count_le (fetch : Nat → fetch_outcome) (close : Nat → Nat → Int)
    (layer : liftoff_layer) :
    fetch_count (layer_cache_fb_info fetch close layer).calls ≤ 1 := by
  cases h : layer_get_property layer FB_ID with
  | none => rw [cache_fb_info_absent h]; simp [fetch_count]
  | some p =>
    by_cases hv : p.value = 0
    · rw [cache_fb_info_zero h hv]; simp [fetch_count]
    · by_cases hid : layer.fb_info.fb_id = p.value
      · rw [cache_fb_info_hit h hv hid]; simp [fetch_count]
      · cases hf : fetch (p.value % 2 ^ 32) with
        | null e => rw [cache_fb_info_null h hv hid hf]; simp [fetch_count]
        | fb fb =>
          rw [cache_fb_info_fb h hv hid hf]
          have := fetch_count_close_handles close fb.handles
          unfold fetch_count at this ⊢
          simp only [List.countP_cons, this]
          simp

/-- After a call that made no fetch, or whose fetch returned the record of the
requested framebuffer, a second call makes no fetch. -/
theorem cache_fb_info_second_call (fetch1 fetch2 : Nat → fetch_outcome)
    (close1 close2 : Nat → Nat → Int) (layer : liftoff_layer)
    (hfetch : ∀ p, layer_get_property layer FB_ID = some p → p.value ≠ 0 →
      layer.fb_info.fb_id ≠ p.value →
      ∃ fb, fetch1 (p.value % 2 ^ 32) = fetch_outcome.fb fb ∧ fb.fb_id = p.value) :
    (layer_cache_fb_info fetch2 close2 (layer_cache_fb_info fetch1 close1 layer).layer).calls
      = [] := by
  have hprops := cache_fb_info_props fetch1 close1 layer
  have hget := get_congr_props hprops FB_ID
  cases h : layer_get_property layer FB_ID with
  | none =>
    rw [h] at hget
    rw [cache_fb_info_absent hget]
  | some p =>
    rw [h] at hget
    by_cases hv : p.value = 0
    · rw [cache_fb_info_zero hget hv]
    · by_cases hid : layer.fb_info.fb_id = p.value
      · rw [cache_fb_info_hit h hv hid] at hget ⊢
        rw [cache_fb_info_hit hget hv hid]
      · obtain ⟨fb, hf, hfb⟩ := hfetch p h hv hid
        have hid2 : (layer_cache_fb_info fetch1 close1 layer).layer.fb_info.fb_id = p.value := by
          rw [cache_fb_info_fb h hv hid hf]
          exact hfb
        rw [cache_fb_info_hit hget hv hid2]

theorem cache_fb_info_no_fetch_twice (fetch1 fetch2 : Nat → fetch_outcome)
    (close1 close2 : Nat → Nat → Int) (layer : liftoff_layer)
    (hnone : fetch_count (layer_cache_fb_info fetch1 close1 layer).calls = 0) :
    (layer_cache_fb_info fetch2 close2 (layer_cache_fb_info fetch1 close1 layer).layer).calls
      = [] := by
  apply cache_fb_info_second_call
  intro p h hv hid
  exfalso
  cases hf : fetch1 (p.value % 2 ^ 32) with
  | null e =>
    rw [cache_fb_info_null h hv hid hf] at hnone
    simp [fetch_count] at hnone
  | fb fb =>
    rw [cache_fb_info_fb h hv hid hf] at hnone
    simp [fetch_count] at hnone

/-! ## Lemmas on the layer lifecycle -/

theorem list_remove_of_find {layers : List (Nat × liftoff_layer)} {addr : Nat}
    {l : liftoff_layer}
    (h : layers.find? (fun e => decide (e.1 = addr)) = some (addr, l)) :
    ∃ pre post, layers = pre ++ (addr, l) :: post ∧ (∀ e ∈ pre, e.1 ≠ addr) ∧
      liftoff_list_remove layers addr = pre ++ post := by
  obtain ⟨_, pre, post, hsplit, hpre⟩ := List.find?_eq_some.1 h
  have hpre2 : ∀ e ∈ pre, e.1 ≠ addr := by
    intro e he
    simpa using hpre e he
  refine ⟨pre, post, hsplit, hpre2, ?_⟩
  unfold liftoff_list_remove
  rw [hsplit, List.eraseP_append_right _ (by simpa using hpre2),
    List.eraseP_cons_of_pos (by simp)]

theorem clear_plane_layer_getElem (planes : List liftoff_plane) (plane i : Nat) :
    (clear_plane_layer planes plane)[i]? =
      if i = plane then (planes[i]?).map (fun pl => { pl with layer := none })
      else planes[i]? := by
  unfold clear_plane_layer
  by_cases hi : i = plane
  · subst hi
    cases h : planes[i]? with
    | none => simp [h]
    | some pl =>
      have hlt : i < planes.length := (List.getElem?_eq_some.1 h).1
      simp [List.getElem?_set, hlt]
  · cases h : planes[plane]? with
    | none => simp [hi]
    | some pl => simp [List.getElem?_set, hi, Ne.symm hi]

/-! ## Lemmas on the capacity of the candidate-plane array -/

theorem filter_set_indexOf_zero {cs : List Nat} (hz : 0 ∈ cs) {p : Nat} (hp : p ≠ 0) :
    List.Perm ((cs.set (cs.indexOf 0) p).filter (fun c => decide (c ≠ 0)))
      (p :: cs.filter (fun c => decide (c ≠ 0))) := by
  induction cs with
  | nil => cases hz
  | cons c rest ih =>
    by_cases hc : c = 0
    · subst hc
      simp [hp]
    · have hz2 : 0 ∈ rest := (List.mem_cons.1 hz).resolve_left (Ne.symm hc)
      rw [List.indexOf_cons_ne _ hc, List.set_cons_succ]
      simp only [List.filter_cons, hc, ne_eq, not_false_eq_true, decide_True, if_true]
      exact ((ih hz2).cons c).trans (List.Perm.swap p c _)

theorem zero_mem_of_room {ids : Finset Nat} {layer : liftoff_layer} {p : Nat}
    (hinv : candidates_within ids layer) (hcard : ids.card ≤ layer.planes_cap)
    (hp : p ∈ ids) (hnew : p ∉ layer.candidate_planes) : 0 ∈ layer.candidate_planes := by
  by_contra hz
  have hall : ∀ c ∈ layer.candidate_planes, decide (c ≠ 0) = true := by
    intro c hc
    simp only [decide_eq_true_eq]
    intro e
    exact hz (e ▸ hc)
  have hfilter := List.filter_eq_self.2 hall
  have hnd : layer.candidate_planes.Nodup := by
    have := hinv.1
    rwa [hfilter] at this
  have hsub : layer.candidate_planes.toFinset ⊆ ids.erase p := by
    intro c hc
    rw [List.mem_toFinset] at hc
    rw [Finset.mem_erase]
    refine ⟨fun e => hnew (e ▸ hc), hinv.2 c hc ?_⟩
    intro e
    exact hz (e ▸ hc)
  have hle := Finset.card_le_card hsub
  rw [List.toFinset_card_of_nodup hnd, Finset.card_erase_of_mem hp] at hle
  have hpos : 0 < ids.card := Finset.card_pos.2 ⟨p, hp⟩
  unfold liftoff_layer.planes_cap at hcard
  omega

theorem candidates_within_reset (ids : Finset Nat) (layer : liftoff_layer) :
    candidates_within ids (layer_reset_candidate_planes layer) := by
  unfold candidates_within layer_reset_candidate_planes
  constructor
  · have hnil : (List.replicate layer.planes_cap 0).filter (fun c => decide (c ≠ 0)) = [] := by
      rw [List.filter_eq_nil_iff]
      intro c hc
      simp [List.eq_of_mem_replicate hc]
    simp only [hnil]
    exact List.nodup_nil
  · intro c hc h0
    exact absurd (List.eq_of_mem_replicate hc) h0

theorem candidates_within_of_empty (ids : Finset Nat) {layer : liftoff_layer}
    (hempty : ∀ c ∈ layer.candidate_planes, c = 0) : candidates_within ids layer := by
  constructor
  · have hnil : layer.candidate_planes.filter (fun c => decide (c ≠ 0)) = [] := by
      rw [List.filter_eq_nil_iff]
      intro c hc
      simp [hempty c hc]
    rw [hnil]
    exact List.nodup_nil
  · intro c hc h0
    exact absurd (hempty c hc) h0

/-- What one `layer_add_candidate_plane` does on an array that holds distinct
ids of a set with no more values than slots. -/
theorem add_candidate_within {ids : Finset Nat} {layer : liftoff_layer} {p : Nat}
    (hinv : candidates_within ids layer) (hcard : ids.card ≤ layer.planes_cap)
    (hp : p ∈ ids) (hp0 : p ≠ 0) :
    (p ∈ layer.candidate_planes → layer_add_candidate_plane layer p = some layer) ∧
    (p ∉ layer.candidate_planes →
      0 ∈ layer.candidate_planes ∧
      layer_add_candidate_plane layer p =
        some { layer with
          candidate_planes :=
            layer.candidate_planes.set (layer.candidate_planes.indexOf 0) p }) ∧
    ∃ next, layer_add_candidate_plane layer p = some next ∧
      candidates_within ids next ∧ next.planes_cap = layer.planes_cap := by
  rw [add_candidate_plane_eq]
  by_cases hmem : p ∈ layer.candidate_planes
  · rw [if_pos hmem]
    exact ⟨fun _ => rfl, fun h => absurd hmem h, layer, rfl, hinv, rfl⟩
  · have hz := zero_mem_of_room hinv hcard hp hmem
    rw [if_neg hmem, if_pos hz]
    refine ⟨fun h => absurd h hmem, fun _ => ⟨hz, rfl⟩, _, rfl, ?_, ?_⟩
    · have hperm := filter_set_indexOf_zero hz hp0
      constructor
      · show ((layer.candidate_planes.set (layer.candidate_planes.indexOf 0) p).filter
          (fun c => decide (c ≠ 0))).Nodup
        rw [hperm.nodup_iff, List.nodup_cons]
        refine ⟨fun h => hmem (List.mem_of_mem_filter h), hinv.1⟩
      · intro c hc h0
        have hc2 : c ∈ (layer.candidate_planes.set (layer.candidate_planes.indexOf 0) p).filter
            (fun c => decide (c ≠ 0)) := List.mem_filter.2 ⟨hc, by simpa using h0⟩
        rcases List.mem_cons.1 (hperm.mem_iff.1 hc2) with e | hin
        · rw [e]; exact hp
        · exact hinv.2 c (List.mem_of_mem_filter hin) h0
    · simp [liftoff_layer.planes_cap]

theorem apply_candidate_calls_within {ids : Finset Nat} (h0 : 0 ∉ ids)
    (calls : List candidate_call) :
    ∀ layer : liftoff_layer, candidates_within ids layer → ids.card ≤ layer.planes_cap →
      (∀ id, candidate_call.add id ∈ calls → id ∈ ids) →
      ∃ final, apply_candidate_calls layer calls = some final ∧
        candidates_within ids final ∧ final.planes_cap = layer.planes_cap := by
  induction calls with
  | nil => intro layer hinv _ _; exact ⟨layer, rfl, hinv, rfl⟩
  | cons c cs ih =>
    intro layer hinv hcard hcalls
    have hrest : ∀ id, candidate_call.add id ∈ cs → id ∈ ids :=
      fun id hid => hcalls id (List.mem_cons_of_mem _ hid)
    cases c with
    | add p =>
      have hp : p ∈ ids := hcalls p (List.mem_cons_self _ _)
      have hp0 : p ≠ 0 := fun e => h0 (e ▸ hp)
      obtain ⟨next, hnext, hinv2, hcap⟩ := (add_candidate_within hinv hcard hp hp0).2.2
      obtain ⟨final, hf, hinv3, hcap2⟩ := ih next hinv2 (by rw [hcap]; exact hcard) hrest
      refine ⟨final, ?_, hinv3, hcap2.trans hcap⟩
      simp only [apply_candidate_calls, apply_candidate_call, hnext]
      exact hf
    | reset =>
      have hcap : (layer_reset_candidate_planes layer).planes_cap = layer.planes_cap := by
        simp [layer_reset_candidate_planes, liftoff_layer.planes_cap]
      obtain ⟨final, hf, hinv3, hcap2⟩ := ih (layer_reset_candidate_planes layer)
        (candidates_within_reset ids layer) (by rw [hcap]; exact hcard) hrest
      refine ⟨final, ?_, hinv3, hcap2.trans hcap⟩
      simp only [apply_candidate_calls, apply_candidate_call]
      exact hf

theorem getElem?_ne_of_lt_indexOf (cs : List Nat) (a : Nat) :
    ∀ j, j < cs.indexOf a → cs[j]? ≠ some a := by
  induction cs with
  | nil => intro j hj; simp at hj
  | cons c rest ih =>
    intro j hj
    by_cases hc : c = a
    · rw [List.indexOf_cons_eq _ hc] at hj
      exact absurd hj (Nat.not_lt_zero _)
    · rw [List.indexOf_cons_ne _ hc] at hj
      cases j with
      | zero =>
        intro e
        simp at e
        exact hc e
      | succ k =>
        rw [List.getElem?_cons_succ]
        exact ih k (Nat.lt_of_succ_lt_succ hj)

theorem getElem?_indexOf_zero {cs : List Nat} (hz : 0 ∈ cs) : cs[cs.indexOf 0]? = some 0 := by
  rw [← List.get?_eq_getElem?]
  exact List.indexOf_get? hz

/-- Stored names stay pairwise distinct along calls whose names fit in the
name array. -/
theorem names_unique_apply_prop_calls {N : Nat} (calls : List prop_call) :
    ∀ layer : liftoff_layer, names_unique layer → (∀ c ∈ calls, c.name.length < N) →
      names_unique (apply_prop_calls N layer calls) := by
  induction calls with
  | nil => intro layer hu _; exact hu
  | cons c cs ih =>
    intro layer hu hshort
    exact ih _ (names_unique_apply_prop_call (hshort c (List.mem_cons_self _ _)) hu)
      (fun d hd => hshort d (List.mem_cons_of_mem _ hd))

theorem cache_fb_info_miss_fetch_count {fetch : Nat → fetch_outcome} {close : Nat → Nat → Int}
    {layer : liftoff_layer} {p : liftoff_layer_property}
    (h : layer_get_property layer FB_ID = some p) (hv : p.value ≠ 0)
    (hid : layer.fb_info.fb_id ≠ p.value) :
    fetch_count (layer_cache_fb_info fetch close layer).calls = 1 := by
  cases hf : fetch (p.value % 2 ^ 32) with
  | null e => rw [cache_fb_info_null h hv hid hf]; simp [fetch_count]
  | fb fb =>
    rw [cache_fb_info_fb h hv hid hf]
    have := fetch_count_close_handles close fb.handles
    unfold fetch_count at this ⊢
    simp only [List.countP_cons, this]
    simp

/-! ## Claims -/

/-- C1, as stated, fails with `DRM_PROP_NAME_LEN = 32`. On a fresh layer, after
`set(long_name, 7)` for a name of 32 characters the last call on `long_name` is
that set, yet `layer_get_property(long_name)` is not found. And on the layer
reached by two sets of `long_name`, which holds two entries with the same
stored name, after `unset(long_name_stored)` (a name of 31 characters) the
last call on `long_name_stored` is an unset, yet it is found. -/
theorem C1_counterexample :
    long_name ≠ CRTC_ID ∧
    last_call_on long_name [prop_call.set long_name 7] = some (prop_call.set long_name 7) ∧
    layer_get_property
      (apply_prop_calls 32 (liftoff_layer.create 1) [prop_call.set long_name 7])
      long_name = none ∧
    long_name_stored ≠ CRTC_ID ∧
    long_name_stored.length < 32 ∧
    layer_two_long_sets.props =
      [{ name := long_name_stored, value := 1, prev_value := 0 },
        { name := long_name_stored, value := 2, prev_value := 0 }] ∧
    last_call_on long_name_stored [prop_call.unset long_name_stored]
      = some (prop_call.unset long_name_stored) ∧
    layer_get_property
      (apply_prop_calls 32 layer_two_long_sets [prop_call.unset long_name_stored])
      long_name_stored = some { name := long_name_stored, value := 2, prev_value := 0 } := by
  decide

/-- C1 (amended): for every layer whose stored names are pairwise distinct,
every finite sequence of `liftoff_layer_set_property` (allocation succeeding)
and `liftoff_layer_unset_property` calls whose names are all shorter than
`DRM_PROP_NAME_LEN`, and every name other than `CRTC_ID`: after the sequence,
`layer_get_property(name)` returns an entry whose value is the value of the
last set call on `name` when the last call on `name` was a set, returns
not-found when it was an unset, and returns what it returned before the
sequence when no call was on `name` (not-found on a layer without
properties). -/
theorem C1_get_returns_last_write (DRM_PROP_NAME_LEN : Nat) (layer : liftoff_layer)
    (calls : List prop_call) (name : List Char)
    (hunique : names_unique layer)
    (hshort : ∀ c ∈ calls, c.name.length < DRM_PROP_NAME_LEN)
    (hname : name ≠ CRTC_ID) :
    (∀ v, last_call_on name calls = some (prop_call.set name v) →
      ∃ p, layer_get_property (apply_prop_calls DRM_PROP_NAME_LEN layer calls) name = some p ∧
        p.value = v) ∧
    (last_call_on name calls = some (prop_call.unset name) →
      layer_get_property (apply_prop_calls DRM_PROP_NAME_LEN layer calls) name = none) ∧
    (last_call_on name calls = none →
      layer_get_property (apply_prop_calls DRM_PROP_NAME_LEN layer calls) name =
        layer_get_property layer name) ∧
    (last_call_on name calls = none → layer.props = [] →
      layer_get_property (apply_prop_calls DRM_PROP_NAME_LEN layer calls) name = none) := by
  have key := @get_apply_prop_calls DRM_PROP_NAME_LEN name hname calls layer hunique hshort
  refine ⟨?_, ?_, ?_, ?_⟩
  · intro v hv
    rw [hv] at key
    exact key
  · intro hv
    rw [hv] at key
    exact key
  · intro hv
    rw [hv] at key
    exact key
  · intro hv hempty
    rw [hv] at key
    rw [key, layer_get_property_eq_lookup, hempty]
    rfl

/-- C1 at a concrete input: on a fresh layer, after
`set(FB_ID, 5); set(alpha, 1); unset(FB_ID); set(FB_ID, 9); unset(alpha)`
the property `FB_ID` reads 9 and `alpha` is not found. -/
theorem C1_get_returns_last_write_witness :
    names_unique (liftoff_layer.create 2) ∧
    (∀ c ∈ [prop_call.set FB_ID 5, prop_call.set alpha 1, prop_call.unset FB_ID,
        prop_call.set FB_ID 9, prop_call.unset alpha], c.name.length < 32) ∧
    FB_ID ≠ CRTC_ID ∧
    ∃ p, layer_get_property
        (apply_prop_calls 32 (liftoff_layer.create 2)
          [prop_call.set FB_ID 5, prop_call.set alpha 1, prop_call.unset FB_ID,
            prop_call.set FB_ID 9, prop_call.unset alpha]) FB_ID = some p ∧
      p.value = 9 :=
  ⟨by decide, by decide, by decide,
    (C1_get_returns_last_write 32 (liftoff_layer.create 2)
      [prop_call.set FB_ID 5, prop_call.set alpha 1, prop_call.unset FB_ID,
        prop_call.set FB_ID 9, prop_call.unset alpha] FB_ID
      (by decide) (by decide) (by decide)).1 9 (by decide)⟩

/-- C2: `liftoff_layer_set_property(layer, "CRTC_ID", v)` returns `-EINVAL`, a
non-zero result, and leaves the whole layer unchanged, whatever `realloc` would
do; and (with `DRM_PROP_NAME_LEN` above 8, so that the name array holds names
longer than `"CRTC_ID"`) from a layer on which `layer_get_property("CRTC_ID")`
is not found, no sequence of `liftoff_layer_set_property`,
`liftoff_layer_unset_property`, `liftoff_layer_set_fb_composited` and
`layer_mark_clean` calls reaches a layer on which it is found. -/
theorem C2_crtc_id_is_reserved (DRM_PROP_NAME_LEN : Nat) (hlen : 8 < DRM_PROP_NAME_LEN)
    (layer : liftoff_layer) :
    (∀ (realloc_ok : Bool) (v : Nat),
      (liftoff_layer_set_property DRM_PROP_NAME_LEN realloc_ok layer CRTC_ID v).1 = -EINVAL ∧
      (liftoff_layer_set_property DRM_PROP_NAME_LEN realloc_ok layer CRTC_ID v).1 ≠ 0 ∧
      (liftoff_layer_set_property DRM_PROP_NAME_LEN realloc_ok layer CRTC_ID v).2 = layer) ∧
    (layer_get_property layer CRTC_ID = none →
      ∀ calls : List layer_call,
        layer_get_property (apply_layer_calls DRM_PROP_NAME_LEN layer calls) CRTC_ID = none) := by
  constructor
  · intro ok v
    rw [get_set_property_crtc_id]
    exact ⟨rfl, by simp [EINVAL], rfl⟩
  · intro h calls
    rw [get_none_iff] at h ⊢
    exact no_crtc_id_apply_layer_calls hlen calls layer h

/-- C2 at `DRM_PROP_NAME_LEN = 32`, on a fresh layer, for a sequence that tries
to set `CRTC_ID`. -/
theorem C2_crtc_id_is_reserved_witness :
    8 < 32 ∧
    layer_get_property
      (apply_layer_calls 32 (liftoff_layer.create 1)
        [layer_call.set_property true CRTC_ID 42, layer_call.set_fb_composited true,
          layer_call.set_property true CRTC_X 3, layer_call.mark_clean,
          layer_call.unset_property FB_ID, layer_call.set_property true CRTC_ID 1])
      CRTC_ID = none :=
  ⟨by decide,
    (C2_crtc_id_is_reserved 32 (by decide) (liftoff_layer.create 1)).2 (by decide)
      [layer_call.set_property true CRTC_ID 42, layer_call.set_fb_composited true,
        layer_call.set_property true CRTC_X 3, layer_call.mark_clean,
        layer_call.unset_property FB_ID, layer_call.set_property true CRTC_ID 1]⟩

/-- C3: a layer whose property `alpha` is present with value 0 is not visible
and does not need composition, whatever `FB_ID`, `force_composition` and the
assigned plane are. -/
theorem C3_transparent_layer_hidden (layer : liftoff_layer)
    (halpha : ∃ p, layer_get_property layer alpha = some p ∧ p.value = 0) :
    layer_is_visible layer = false ∧ liftoff_layer_needs_composition layer = false := by
  obtain ⟨p, hp, hv⟩ := halpha
  have hvis : layer_is_visible layer = false := by
    simp [layer_is_visible, hp, hv]
  exact ⟨hvis, by simp [liftoff_layer_needs_composition, hvis]⟩

/-- C3 at a layer with `FB_ID = 7` and `alpha = 0`. -/
theorem C3_transparent_layer_hidden_witness :
    (∃ p, layer_get_property transparent_fb_layer alpha = some p ∧ p.value = 0) ∧
    layer_is_visible transparent_fb_layer = false ∧
    liftoff_layer_needs_composition transparent_fb_layer = false :=
  ⟨⟨{ name := alpha, value := 0, prev_value := 0 }, by decide, rfl⟩,
    C3_transparent_layer_hidden transparent_fb_layer
      ⟨{ name := alpha, value := 0, prev_value := 0 }, by decide, rfl⟩⟩

/-- C4: `layer_is_visible` returns true exactly when it is not the case that
`alpha` is present with value 0 and, in addition, `force_composition` is true or
`FB_ID` is present with a non-zero value; `liftoff_layer_needs_composition`
returns true exactly when the layer is visible and has no plane. -/
theorem C4_visibility_rule (layer : liftoff_layer) :
    (layer_is_visible layer = true ↔
      ¬ (∃ p, layer_get_property layer alpha = some p ∧ p.value = 0) ∧
      (layer.force_composition = true ∨
        ∃ p, layer_get_property layer FB_ID = some p ∧ p.value ≠ 0)) ∧
    (liftoff_layer_needs_composition layer = true ↔
      layer_is_visible layer = true ∧ layer.plane = none) := by
  constructor
  · unfold layer_is_visible layer_has_fb
    cases ha : layer_get_property layer alpha with
    | none =>
      cases hf : layer_get_property layer FB_ID with
      | none => simp
      | some q => simp
    | some p =>
      cases hf : layer_get_property layer FB_ID with
      | none => by_cases hv : p.value = 0 <;> simp [hv]
      | some q => by_cases hv : p.value = 0 <;> simp [hv]
  · unfold liftoff_layer_needs_composition
    cases hvis : layer_is_visible layer <;> simp

/-- C5, as stated, fails: the layer reached by `set(alpha, 0)` then
`liftoff_layer_set_fb_composited` has `force_composition` true and is not
visible. -/
theorem C5_counterexample :
    transparent_forced_layer.force_composition = true ∧
    layer_is_visible transparent_forced_layer = false := by
  decide

/-- C5 (amended): a layer whose `force_composition` flag is true, and whose
property `alpha` is not present with value 0, is visible whatever `FB_ID` is. -/
theorem C5_forced_layer_visible (layer : liftoff_layer)
    (hforce : layer.force_composition = true)
    (halpha : ¬ ∃ p, layer_get_property layer alpha = some p ∧ p.value = 0) :
    layer_is_visible layer = true := by
  unfold layer_is_visible
  cases ha : layer_get_property layer alpha with
  | none => simp [hforce]
  | some p =>
    have hv : p.value ≠ 0 := fun h => halpha ⟨p, ha, h⟩
    simp [hforce, hv]

/-- C5 (amended) at the layer reached by `liftoff_layer_set_fb_composited`
alone, whose `FB_ID` is 0. -/
theorem C5_forced_layer_visible_witness :
    forced_layer.force_composition = true ∧
    (¬ ∃ p, layer_get_property forced_layer alpha = some p ∧ p.value = 0) ∧
    layer_is_visible forced_layer = true :=
  ⟨by decide, by simp [show layer_get_property forced_layer alpha = none by decide],
    C5_forced_layer_visible forced_layer (by decide)
      (by simp [show layer_get_property forced_layer alpha = none by decide])⟩

/-- C6, as stated, fails on a reachable layer: after
`liftoff_layer_set_fb_composited` then `unset(FB_ID)` the flag
`force_composition` is still true, so a further
`liftoff_layer_set_fb_composited` returns at once and `FB_ID` is not found.
It also fails on a fresh layer when `realloc` fails, the result of the inner
`liftoff_layer_set_property` being ignored. -/
theorem C6_counterexample :
    forced_layer_without_fb.force_composition = true ∧
    layer_get_property (liftoff_layer_set_fb_composited 32 true forced_layer_without_fb)
      FB_ID = none ∧
    layer_get_property (liftoff_layer_set_fb_composited 32 false (liftoff_layer.create 1))
      FB_ID = none := by
  decide

/-- C6 (amended): with `DRM_PROP_NAME_LEN` above 5 and allocations succeeding,
for every layer whose `force_composition` is false, after
`liftoff_layer_set_fb_composited` the property `FB_ID` is found and reads 0 and
`force_composition` is true; on a layer whose `force_composition` is already
true the call changes nothing; and in both cases a following
`liftoff_layer_set_property(layer, "FB_ID", v)`, for any `v` (non-zero in
particular), returns 0 and leaves `force_composition` false and `changed`
true. -/
theorem C6_set_fb_composited_then_set_fb (DRM_PROP_NAME_LEN : Nat)
    (hlen : 5 < DRM_PROP_NAME_LEN) (layer : liftoff_layer) :
    (layer.force_composition = false →
      (∃ p, layer_get_property
          (liftoff_layer_set_fb_composited DRM_PROP_NAME_LEN true layer) FB_ID = some p ∧
        p.value = 0) ∧
      (liftoff_layer_set_fb_composited DRM_PROP_NAME_LEN true layer).force_composition
        = true) ∧
    (layer.force_composition = true →
      liftoff_layer_set_fb_composited DRM_PROP_NAME_LEN true layer = layer) ∧
    (∀ v : Nat,
      (liftoff_layer_set_property DRM_PROP_NAME_LEN true
        (liftoff_layer_set_fb_composited DRM_PROP_NAME_LEN true layer) FB_ID v).1 = 0 ∧
      (liftoff_layer_set_property DRM_PROP_NAME_LEN true
        (liftoff_layer_set_fb_composited DRM_PROP_NAME_LEN true layer) FB_ID v).2.force_composition
        = false ∧
      (liftoff_layer_set_property DRM_PROP_NAME_LEN true
        (liftoff_layer_set_fb_composited DRM_PROP_NAME_LEN true layer) FB_ID v).2.changed
        = true) := by
  have hn : FB_ID ≠ CRTC_ID := by decide
  have hfb : FB_ID.length < DRM_PROP_NAME_LEN := hlen
  refine ⟨?_, ?_, ?_⟩
  · intro hforce
    refine ⟨?_, set_fb_composited_force _ _ _⟩
    obtain ⟨p, hp, _, hv⟩ := get_set_property_same layer hn hfb 0
    refine ⟨p, ?_, hv⟩
    rw [layer_get_property_eq_lookup] at hp ⊢
    rw [set_fb_composited_of_not_forced hforce]
    exact hp
  · intro hforce
    exact set_fb_composited_of_forced hforce
  · intro v
    have hok : (liftoff_layer_set_property DRM_PROP_NAME_LEN true
        (liftoff_layer_set_fb_composited DRM_PROP_NAME_LEN true layer) FB_ID v).1 = 0 := by
      cases h : find_property FB_ID
          (liftoff_layer_set_fb_composited DRM_PROP_NAME_LEN true layer).props with
      | some i => exact (set_property_found hn h v).1
      | none => exact (set_property_new hn h v).1
    exact ⟨hok, set_property_flags_of_forced v hok (set_fb_composited_force _ _ _)⟩

/-- C6 (amended) at `DRM_PROP_NAME_LEN = 32`, on a fresh layer, followed by
`set(FB_ID, 4)`. -/
theorem C6_set_fb_composited_then_set_fb_witness :
    5 < 32 ∧
    (liftoff_layer.create 1).force_composition = false ∧
    (∃ p, layer_get_property
        (liftoff_layer_set_fb_composited 32 true (liftoff_layer.create 1)) FB_ID = some p ∧
      p.value = 0) ∧
    (liftoff_layer_set_property 32 true
      (liftoff_layer_set_fb_composited 32 true (liftoff_layer.create 1))
      FB_ID 4).2.force_composition = false :=
  ⟨by decide, rfl,
    ((C6_set_fb_composited_then_set_fb 32 (by decide) (liftoff_layer.create 1)).1 rfl).1,
    ((C6_set_fb_composited_then_set_fb 32 (by decide) (liftoff_layer.create 1)).2.2 4).2.1⟩

/-- C7: `liftoff_layer_set_fb_composited` is idempotent: applying it twice in a
row yields exactly the layer (entries with their values and previous values,
flags, priorities) that applying it once yields, whatever `realloc` does in
either call. -/
theorem C7_set_fb_composited_idempotent (DRM_PROP_NAME_LEN : Nat) (first_ok second_ok : Bool)
    (layer : liftoff_layer) :
    liftoff_layer_set_fb_composited DRM_PROP_NAME_LEN second_ok
        (liftoff_layer_set_fb_composited DRM_PROP_NAME_LEN first_ok layer) =
      liftoff_layer_set_fb_composited DRM_PROP_NAME_LEN first_ok layer :=
  set_fb_composited_of_forced (set_fb_composited_force _ _ _)

/-- C8: `layer_intersects` is symmetric, for all layers (any property values,
with the `int` sums wrapping, and any visibility). -/
theorem C8_layer_intersects_symmetric (a b : liftoff_layer) :
    layer_intersects a b = layer_intersects b a := by
  unfold layer_intersects
  by_cases ha : layer_is_visible a = true <;> by_cases hb : layer_is_visible b = true
  · simp only [ha, hb, not_true_eq_false, or_self, if_false, gt_iff_lt]
    generalize decide ((layer_get_rect a).x <
      wrap_int ((layer_get_rect b).x + (layer_get_rect b).width)) = c1
    generalize decide ((layer_get_rect a).y <
      wrap_int ((layer_get_rect b).y + (layer_get_rect b).height)) = c2
    generalize decide ((layer_get_rect b).x <
      wrap_int ((layer_get_rect a).x + (layer_get_rect a).width)) = c3
    generalize decide ((layer_get_rect b).y <
      wrap_int ((layer_get_rect a).y + (layer_get_rect a).height)) = c4
    cases c1 <;> cases c2 <;> cases c3 <;> cases c4 <;> rfl
  · simp [ha, hb]
  · simp [ha, hb]
  · simp [ha, hb]

/-- C9, as stated, fails for a rectangle of width and height 0: the layer with
`CRTC_X = 5`, `CRTC_Y = 5` and no `CRTC_W`, `CRTC_H` and the layer with
rectangle `{0, 0, 10, 10}` are visible, have non-negative sizes and sums that
do not overflow, and `layer_intersects` returns true, yet the first rectangle
is empty and the two have no point in common. -/
theorem C9_counterexample :
    layer_is_visible layer_point_5_5 = true ∧
    layer_is_visible (layer_with_rect 0 0 10 10) = true ∧
    layer_get_rect layer_point_5_5 = { x := 5, y := 5, width := 0, height := 0 } ∧
    layer_get_rect (layer_with_rect 0 0 10 10) = { x := 0, y := 0, width := 10, height := 10 } ∧
    layer_intersects layer_point_5_5 (layer_with_rect 0 0 10 10) = true ∧
    ¬ ∃ px py, rect_contains (layer_get_rect layer_point_5_5) px py ∧
      rect_contains (layer_get_rect (layer_with_rect 0 0 10 10)) px py := by
  refine ⟨by decide, by decide, by decide, by decide, by decide, ?_⟩
  rw [show layer_get_rect layer_point_5_5 = { x := 5, y := 5, width := 0, height := 0 }
    by decide]
  rintro ⟨px, py, ⟨h1, h2, _, _⟩, _⟩
  simp only at h1 h2
  omega

/-- C9 (amended): `layer_intersects` is false whenever either layer is not
visible; and for two visible layers whose rectangles (from `CRTC_X`, `CRTC_Y`,
`CRTC_W`, `CRTC_H`, missing ones read as 0) have positive width and height and
sums `x + width`, `y + height` that do not overflow a 32-bit `int`, it is true
exactly when the half-open rectangles `[x, x + width) x [y, y + height)` have a
point in common. The rectangles `{0, 0, 100, 100}` and `{50, 50, 10, 10}`
intersect, `{0, 0, 100, 100}` and `{200, 200, 10, 10}` do not. -/
theorem C9_layer_intersects_overlap (a b : liftoff_layer) :
    ((layer_is_visible a = false ∨ layer_is_visible b = false) →
      layer_intersects a b = false) ∧
    (layer_is_visible a = true → layer_is_visible b = true →
      0 < (layer_get_rect a).width → 0 < (layer_get_rect a).height →
      0 < (layer_get_rect b).width → 0 < (layer_get_rect b).height →
      (layer_get_rect a).x + (layer_get_rect a).width < 2 ^ 31 →
      (layer_get_rect a).y + (layer_get_rect a).height < 2 ^ 31 →
      (layer_get_rect b).x + (layer_get_rect b).width < 2 ^ 31 →
      (layer_get_rect b).y + (layer_get_rect b).height < 2 ^ 31 →
      (layer_intersects a b = true ↔
        ∃ px py, rect_contains (layer_get_rect a) px py ∧
          rect_contains (layer_get_rect b) px py)) ∧
    layer_intersects (layer_with_rect 0 0 100 100) (layer_with_rect 50 50 10 10) = true ∧
    layer_intersects (layer_with_rect 0 0 100 100) (layer_with_rect 200 200 10 10) = false := by
  refine ⟨layer_intersects_of_hidden, ?_, by decide, by decide⟩
  intro ha hb haw hah hbw hbh hax hay hbx hby
  have hra := layer_get_rect_range a
  have hrb := layer_get_rect_range b
  rw [layer_intersects_of_visible ha hb,
    wrap_int_of_range (by omega) hax, wrap_int_of_range (by omega) hay,
    wrap_int_of_range (by omega) hbx, wrap_int_of_range (by omega) hby]
  exact overlap_iff_common_point _ _ haw hah hbw hbh

/-- C9 (amended) on the rectangles `{0, 0, 100, 100}` and `{50, 50, 10, 10}`:
`layer_intersects` returns true and the rectangles have a point in common. -/
theorem C9_layer_intersects_overlap_witness :
    layer_is_visible (layer_with_rect 0 0 100 100) = true ∧
    layer_is_visible (layer_with_rect 50 50 10 10) = true ∧
    layer_get_rect (layer_with_rect 0 0 100 100) =
      { x := 0, y := 0, width := 100, height := 100 } ∧
    layer_get_rect (layer_with_rect 50 50 10 10) =
      { x := 50, y := 50, width := 10, height := 10 } ∧
    layer_intersects (layer_with_rect 0 0 100 100) (layer_with_rect 50 50 10 10) = true ∧
    ∃ px py, rect_contains (layer_get_rect (layer_with_rect 0 0 100 100)) px py ∧
      rect_contains (layer_get_rect (layer_with_rect 50 50 10 10)) px py :=
  ⟨by decide, by decide, by decide, by decide, by decide,
    ((C9_layer_intersects_overlap (layer_with_rect 0 0 100 100)
      (layer_with_rect 50 50 10 10)).2.1 (by decide) (by decide) (by decide) (by decide)
      (by decide) (by decide) (by decide) (by decide) (by decide) (by decide)).1 (by decide)⟩

/-- C10: for every layer whose candidate-plane array has a free slot or already
holds the id, and every plane with a non-zero id `p`,
`layer_add_candidate_plane` returns (its assertion holds), after it
`liftoff_layer_is_candidate_plane` returns true for `p`, and every id that was
a candidate before is still a candidate, the ids being those of planes, which
are never 0 (0 marks an empty slot); and after `layer_reset_candidate_planes`,
`liftoff_layer_is_candidate_plane` returns false for every plane with a
non-zero id, the one added before the reset included. -/
theorem C10_candidate_add_reset (layer : liftoff_layer) (p : Nat) (hp : p ≠ 0) :
    ((0 ∈ layer.candidate_planes ∨ p ∈ layer.candidate_planes) →
      ∃ after, layer_add_candidate_plane layer p = some after ∧
        liftoff_layer_is_candidate_plane after p = true ∧
        ∀ q, q ≠ 0 → liftoff_layer_is_candidate_plane layer q = true →
          liftoff_layer_is_candidate_plane after q = true) ∧
    (∀ after, layer_add_candidate_plane layer p = some after →
      liftoff_layer_is_candidate_plane (layer_reset_candidate_planes after) p = false) ∧
    (∀ q, q ≠ 0 →
      liftoff_layer_is_candidate_plane (layer_reset_candidate_planes layer) q = false) := by
  have hreset : ∀ (l : liftoff_layer) (q : Nat), q ≠ 0 →
      liftoff_layer_is_candidate_plane (layer_reset_candidate_planes l) q = false := by
    intro l q hq
    rw [← Bool.not_eq_true, is_candidate_iff]
    intro hmem
    exact hq (List.eq_of_mem_replicate hmem)
  refine ⟨?_, fun after _ => hreset after p hp, hreset layer⟩
  intro hslot
  rw [add_candidate_plane_eq]
  by_cases hmem : p ∈ layer.candidate_planes
  · rw [if_pos hmem]
    exact ⟨layer, rfl, (is_candidate_iff _ _).2 hmem, fun _ _ h => h⟩
  · have hz : 0 ∈ layer.candidate_planes := hslot.resolve_right hmem
    rw [if_neg hmem, if_pos hz]
    refine ⟨_, rfl, ?_, ?_⟩
    · rw [is_candidate_iff]
      exact mem_set_indexOf_zero hz p
    · intro q hq hcand
      rw [is_candidate_iff] at hcand ⊢
      exact mem_set_of_mem_of_ne_zero hz p hq hcand

/-- C10 on the array `[3, 0]` and plane 5: the add stores 5, plane 3
is still a candidate, and after a reset plane 5 is no candidate. -/
theorem C10_candidate_add_reset_witness :
    (5 : Nat) ≠ 0 ∧
    (0 ∈ ({ liftoff_layer.create 2 with candidate_planes := [3, 0] } :
      liftoff_layer).candidate_planes) ∧
    (∃ after,
      layer_add_candidate_plane { liftoff_layer.create 2 with candidate_planes := [3, 0] } 5 =
        some after ∧
      liftoff_layer_is_candidate_plane after 5 = true ∧
      ∀ q, q ≠ 0 →
        liftoff_layer_is_candidate_plane
          { liftoff_layer.create 2 with candidate_planes := [3, 0] } q = true →
        liftoff_layer_is_candidate_plane after q = true) :=
  ⟨by decide, by decide,
    (C10_candidate_add_reset { liftoff_layer.create 2 with candidate_planes := [3, 0] } 5
      (by decide)).1 (Or.inl (by decide))⟩

/-- C11, as stated for every `n`, fails at `n = 2 ^ 31`: on a fresh layer, after
`2 ^ 31` cycles that set `FB_ID` alternately to 1 and 2, the final
`layer_update_priority(layer, true)` leaves `current_priority` at `-2 ^ 31`,
the `int` counter having wrapped; no `int` equals `2 ^ 31`. -/
theorem C11_counterexample :
    (liftoff_layer.create 1).pending_priority = 0 ∧
    alternating_fbs 0 ≠ fb_id_at_last_clean (liftoff_layer.create 1) ∧
    (∀ i, alternating_fbs (i + 1) ≠ alternating_fbs i) ∧
    (layer_update_priority
      (run_priority_cycles 32 (liftoff_layer.create 1) alternating_fbs (2 ^ 31))
      true).current_priority = -2 ^ 31 ∧
    (layer_update_priority
      (run_priority_cycles 32 (liftoff_layer.create 1) alternating_fbs (2 ^ 31))
      true).current_priority ≠ ((2 ^ 31 : Nat) : Int) := by
  have halt : ∀ i, alternating_fbs (i + 1) ≠ alternating_fbs i := by
    intro i
    unfold alternating_fbs
    omega
  have hfirst : alternating_fbs 0 ≠ fb_id_at_last_clean (liftoff_layer.create 1) := by decide
  have hcur := (current_priority_after_cycles (by decide : 5 < 32) (liftoff_layer.create 1) rfl
    alternating_fbs (2 ^ 31) (fun _ => hfirst) (fun i _ => halt i)
    (fun h => absurd h (by norm_num))).1
  have hwrap : wrap_int ((2 ^ 31 : Nat) : Int) = -2 ^ 31 := by
    unfold wrap_int
    norm_num
  rw [hwrap] at hcur
  refine ⟨rfl, hfirst, halt, hcur, ?_⟩
  rw [hcur]
  norm_num

/-- C11 (amended): with `DRM_PROP_NAME_LEN` above 5, for every layer with
`pending_priority = 0` and every `n` below `2 ^ 31`: after `n` consecutive
cycles, each setting `FB_ID` (allocation succeeding) to a value different from
the one recorded at the last `layer_mark_clean` (the `prev_value` of the
entry, 0 for a layer without `FB_ID`), then calling
`layer_update_priority(layer, false)` and `layer_mark_clean(layer)`, a final
`layer_update_priority(layer, true)` with `FB_ID` unchanged yields
`current_priority = n` and `pending_priority = 0`; and a single
`layer_update_priority` call counts one increment at most, whatever the values
of `FB_ID`. -/
theorem C11_priority_after_cycles (DRM_PROP_NAME_LEN : Nat) (hlen : 5 < DRM_PROP_NAME_LEN)
    (layer : liftoff_layer) (hpend : layer.pending_priority = 0) (fbs : Nat → Nat) (n : Nat)
    (hn : n < 2 ^ 31)
    (hfirst : 0 < n → fbs 0 ≠ fb_id_at_last_clean layer)
    (hnext : ∀ i, i + 1 < n → fbs (i + 1) ≠ fbs i)
    (hzero : n = 0 → fb_id_unchanged layer) :
    (layer_update_priority (run_priority_cycles DRM_PROP_NAME_LEN layer fbs n)
      true).current_priority = n ∧
    (layer_update_priority (run_priority_cycles DRM_PROP_NAME_LEN layer fbs n)
      true).pending_priority = 0 ∧
    (∀ l : liftoff_layer,
      ((layer_update_priority l false).pending_priority = l.pending_priority ∨
        (layer_update_priority l false).pending_priority = wrap_int (l.pending_priority + 1)) ∧
      ((layer_update_priority l true).current_priority = l.pending_priority ∨
        (layer_update_priority l true).current_priority = wrap_int (l.pending_priority + 1)) ∧
      (-2 ^ 31 ≤ l.pending_priority → l.pending_priority < 2 ^ 31 - 1 →
        (layer_update_priority l false).pending_priority ≤ l.pending_priority + 1)) := by
  have hcur := current_priority_after_cycles hlen layer hpend fbs n hfirst hnext hzero
  have hwrap : wrap_int (n : Int) = n := wrap_int_of_range (by omega) (by omega)
  refine ⟨by rw [hcur.1, hwrap], hcur.2, ?_⟩
  intro l
  have hstep := update_priority_step l
  refine ⟨hstep.1, hstep.2.1, ?_⟩
  intro hlo hhi
  rcases hstep.1 with h | h
  · rw [h]; omega
  · rw [h, wrap_int_of_range (by omega) (by omega)]

/-- C11 (amended) at `DRM_PROP_NAME_LEN = 32` and `n = 3`, on a fresh layer with
`FB_ID` set to 1, 2, 1: `current_priority = 3` and `pending_priority = 0`. -/
theorem C11_priority_after_cycles_witness :
    5 < 32 ∧ (liftoff_layer.create 1).pending_priority = 0 ∧ 3 < 2 ^ 31 ∧
    alternating_fbs 0 ≠ fb_id_at_last_clean (liftoff_layer.create 1) ∧
    (layer_update_priority (run_priority_cycles 32 (liftoff_layer.create 1) alternating_fbs 3)
      true).current_priority = 3 ∧
    (layer_update_priority (run_priority_cycles 32 (liftoff_layer.create 1) alternating_fbs 3)
      true).pending_priority = 0 :=
  ⟨by decide, rfl, by decide, by decide,
    (C11_priority_after_cycles 32 (by decide) (liftoff_layer.create 1) rfl alternating_fbs 3
      (by decide) (fun _ => by decide) (fun i _ => by unfold alternating_fbs; omega)
      (fun h => absurd h (by decide))).1,
    (C11_priority_after_cycles 32 (by decide) (liftoff_layer.create 1) rfl alternating_fbs 3
      (by decide) (fun _ => by decide) (fun i _ => by unfold alternating_fbs; omega)
      (fun h => absurd h (by decide))).2.1⟩

/-- C12, as stated, fails when the fetch fails: on a layer with `FB_ID = 1` and
an empty cache, with `drmModeGetFB2` failing with `EINVAL`, the first
`layer_cache_fb_info` returns 0 and caches nothing, and the second call, with
`FB_ID` unchanged, fetches again: two fetches in total. -/
theorem C12_counterexample :
    (layer_cache_fb_info fetch_einval close_ok (layer_with_rect 0 0 10 10)).ret = 0 ∧
    fetch_count
      ((layer_cache_fb_info fetch_einval close_ok (layer_with_rect 0 0 10 10)).calls ++
        (layer_cache_fb_info fetch_einval close_ok
          (layer_cache_fb_info fetch_einval close_ok
            (layer_with_rect 0 0 10 10)).layer).calls) = 2 := by
  decide

/-- C12 (amended): for every layer and every behaviour of the kernel, each
`layer_cache_fb_info` call fetches at most once; of two consecutive calls with
`FB_ID` unchanged between them, the second makes no call to the kernel when the
first made no fetch, and also when the fetch of the first call succeeded and
returned the record of the requested framebuffer (`fb_id` equal to the `FB_ID`
value), so that the two calls then fetch at most once in total; when the fetch
of the first call failed, the second call fetches again. -/
theorem C12_second_call_is_cache_hit (layer : liftoff_layer)
    (fetch1 fetch2 : Nat → fetch_outcome) (close1 close2 : Nat → Nat → Int) :
    fetch_count (layer_cache_fb_info fetch1 close1 layer).calls ≤ 1 ∧
    (fetch_count (layer_cache_fb_info fetch1 close1 layer).calls = 0 →
      (layer_cache_fb_info fetch2 close2
        (layer_cache_fb_info fetch1 close1 layer).layer).calls = []) ∧
    ((∀ p, layer_get_property layer FB_ID = some p → p.value ≠ 0 →
        layer.fb_info.fb_id ≠ p.value →
        ∃ fb, fetch1 (p.value % 2 ^ 32) = fetch_outcome.fb fb ∧ fb.fb_id = p.value) →
      (layer_cache_fb_info fetch2 close2
        (layer_cache_fb_info fetch1 close1 layer).layer).calls = [] ∧
      fetch_count
        ((layer_cache_fb_info fetch1 close1 layer).calls ++
          (layer_cache_fb_info fetch2 close2
            (layer_cache_fb_info fetch1 close1 layer).layer).calls) ≤ 1) ∧
    (∀ p e, layer_get_property layer FB_ID = some p → p.value ≠ 0 →
      layer.fb_info.fb_id ≠ p.value → fetch1 (p.value % 2 ^ 32) = fetch_outcome.null e →
      fetch_count (layer_cache_fb_info fetch1 close1 layer).calls = 1 ∧
      fetch_count
        (layer_cache_fb_info fetch2 close2
          (layer_cache_fb_info fetch1 close1 layer).layer).calls = 1) := by
  refine ⟨cache_fb_info_fetch_count_le _ _ _, cache_fb_info_no_fetch_twice _ _ _ _ _, ?_, ?_⟩
  · intro hfetch
    have h2 := cache_fb_info_second_call fetch1 fetch2 close1 close2 layer hfetch
    refine ⟨h2, ?_⟩
    rw [h2, List.append_nil]
    exact cache_fb_info_fetch_count_le _ _ _
  · intro p e h hv hid hf
    refine ⟨cache_fb_info_miss_fetch_count h hv hid, ?_⟩
    have hsame : (layer_cache_fb_info fetch1 close1 layer).layer = layer := by
      rw [cache_fb_info_null h hv hid hf]
    rw [hsame]
    exact cache_fb_info_miss_fetch_count h hv hid

/-- C12 (amended) on a layer with `FB_ID = 1`, the fetch returning the record
of framebuffer 1: the second call makes no call to the kernel, even though its
own fetch would fail. -/
theorem C12_second_call_is_cache_hit_witness :
    (∀ p, layer_get_property (layer_with_rect 0 0 10 10) FB_ID = some p → p.value ≠ 0 →
      (layer_with_rect 0 0 10 10).fb_info.fb_id ≠ p.value →
      ∃ fb, fetch_handles [5, 5, 7, 0] (p.value % 2 ^ 32) = fetch_outcome.fb fb ∧
        fb.fb_id = p.value) ∧
    fetch_count (layer_cache_fb_info (fetch_handles [5, 5, 7, 0]) close_ok
      (layer_with_rect 0 0 10 10)).calls = 1 ∧
    (layer_cache_fb_info fetch_einval close_ok
      (layer_cache_fb_info (fetch_handles [5, 5, 7, 0]) close_ok
        (layer_with_rect 0 0 10 10)).layer).calls = [] :=
  have hfetch : ∀ p, layer_get_property (layer_with_rect 0 0 10 10) FB_ID = some p →
      p.value ≠ 0 → (layer_with_rect 0 0 10 10).fb_info.fb_id ≠ p.value →
      ∃ fb, fetch_handles [5, 5, 7, 0] (p.value % 2 ^ 32) = fetch_outcome.fb fb ∧
        fb.fb_id = p.value := by
    intro p hp _ _
    have hg : layer_get_property (layer_with_rect 0 0 10 10) FB_ID =
        some { name := FB_ID, value := 1, prev_value := 0 } := by decide
    rw [hg] at hp
    cases hp
    exact ⟨fb_record 1 [5, 5, 7, 0], rfl, rfl⟩
  ⟨hfetch, by decide,
    ((C12_second_call_is_cache_hit (layer_with_rect 0 0 10 10) (fetch_handles [5, 5, 7, 0])
      fetch_einval close_ok close_ok).2.2.1 hfetch).1⟩

/-- C13, as stated for every pattern of close results, fails when a close
fails: with the handle list `[5, 5, 0, 0]` and the close call at index 0
failing, the loop does not zero the second entry and passes handle 5 to
`drmCloseBufferHandle` twice. -/
theorem C13_counterexample :
    (layer_cache_fb_info (fetch_handles [5, 5, 0, 0]) close_first_fails
      (layer_with_rect 0 0 10 10)).calls =
      [kernel_call.drmModeGetFB2 1, kernel_call.drmCloseBufferHandle 5,
        kernel_call.drmCloseBufferHandle 5] ∧
    close_count 5
      (layer_cache_fb_info (fetch_handles [5, 5, 0, 0]) close_first_fails
        (layer_with_rect 0 0 10 10)).calls = 2 := by
  decide

/-- C13 (amended): for every successful metadata fetch in
`layer_cache_fb_info`, every handle list it returns and every pattern of close
results: only non-zero values of the list are passed to
`drmCloseBufferHandle`; each non-zero value of the list is passed at least
once; and a value whose first close call (the one at its first index in the
list) returns 0 is passed exactly once, however many entries share it. So
when every close succeeds each distinct non-zero handle is closed exactly
once. -/
theorem C13_handles_closed (layer : liftoff_layer) (fetch : Nat → fetch_outcome)
    (close : Nat → Nat → Int) (p : liftoff_layer_property) (fb : drmModeFB2)
    (hprop : layer_get_property layer FB_ID = some p) (hvalue : p.value ≠ 0)
    (hmiss : layer.fb_info.fb_id ≠ p.value)
    (hfetch : fetch (p.value % 2 ^ 32) = fetch_outcome.fb fb) :
    (∀ h, 0 < close_count h (layer_cache_fb_info fetch close layer).calls →
      h ≠ 0 ∧ h ∈ fb.handles) ∧
    (∀ h ∈ fb.handles, h ≠ 0 →
      1 ≤ close_count h (layer_cache_fb_info fetch close layer).calls) ∧
    (∀ h ∈ fb.handles, h ≠ 0 → close (fb.handles.indexOf h) h = 0 →
      close_count h (layer_cache_fb_info fetch close layer).calls = 1) ∧
    ((∀ i h, close i h = 0) → ∀ h ∈ fb.handles, h ≠ 0 →
      close_count h (layer_cache_fb_info fetch close layer).calls = 1) := by
  have hcalls : ∀ h, close_count h (layer_cache_fb_info fetch close layer).calls =
      close_count h (close_handles close fb.handles).2 := by
    intro h
    rw [cache_fb_info_fb hprop hvalue hmiss hfetch]
    unfold close_count
    rw [List.count_cons_of_ne (by simp)]
  have hone : ∀ h ∈ fb.handles, h ≠ 0 → close (fb.handles.indexOf h) h = 0 →
      close_count h (layer_cache_fb_info fetch close layer).calls = 1 := by
    intro h hmem h0 hfirst
    rw [hcalls]
    exact close_handles_from_count_one close _ 0 _ h (Nat.le_refl _) hmem h0
      (by rw [Nat.zero_add]; exact hfirst)
  refine ⟨?_, ?_, hone, fun hall h hmem h0 => hone h hmem h0 (hall _ _)⟩
  · intro h hpos
    rw [hcalls] at hpos
    unfold close_count at hpos
    obtain ⟨h2, e, h20, hm⟩ := close_handles_from_mem close _ _ _ _ (List.count_pos_iff.1 hpos)
    cases e
    exact ⟨h20, hm⟩
  · intro h hmem h0
    rw [hcalls]
    unfold close_count
    exact List.count_pos_iff.2
      (close_handles_from_closes close _ 0 _ h (Nat.le_refl _) hmem h0)

/-- C13 (amended) on the handle list `[5, 5, 7, 0]` with every close
succeeding: handle 5, shared by two sub-planes, is closed exactly once. -/
theorem C13_handles_closed_witness :
    layer_get_property (layer_with_rect 0 0 10 10) FB_ID =
      some { name := FB_ID, value := 1, prev_value := 0 } ∧
    close_count 5
      (layer_cache_fb_info (fetch_handles [5, 5, 7, 0]) close_ok
        (layer_with_rect 0 0 10 10)).calls = 1 :=
  ⟨by decide,
    (C13_handles_closed (layer_with_rect 0 0 10 10) (fetch_handles [5, 5, 7, 0]) close_ok
      { name := FB_ID, value := 1, prev_value := 0 } (fb_record 1 [5, 5, 7, 0])
      (by decide) (by decide) (by decide) rfl).2.2.1 5 (by decide) (by decide) rfl⟩

/-- C14: `layer_cache_fb_info`, when `FB_ID` is absent or 0, makes no call to
the kernel, clears `fb_info` to all-zero and returns 0; when the fetch fails
with `errno == EINVAL` it returns 0 and leaves the layer, `fb_info` included,
unchanged; when the fetch fails with another `errno` value `e` it returns `-e`,
negative for the positive values `errno` takes, and leaves the layer unchanged;
when the fetch succeeds it returns 0 whatever the close calls return; and it
returns a non-zero result in no other case than a fetch failing with an
`errno` other than `EINVAL`. -/
theorem C14_cache_fb_info_results (layer : liftoff_layer) (fetch : Nat → fetch_outcome)
    (close : Nat → Nat → Int) :
    ((layer_get_property layer FB_ID = none ∨
        ∃ p, layer_get_property layer FB_ID = some p ∧ p.value = 0) →
      (layer_cache_fb_info fetch close layer).calls = [] ∧
      (layer_cache_fb_info fetch close layer).layer =
        { layer with fb_info := drmModeFB2.zero } ∧
      (layer_cache_fb_info fetch close layer).ret = 0) ∧
    (∀ p, layer_get_property layer FB_ID = some p → p.value ≠ 0 →
      layer.fb_info.fb_id ≠ p.value →
      (fetch (p.value % 2 ^ 32) = fetch_outcome.null EINVAL →
        (layer_cache_fb_info fetch close layer).ret = 0 ∧
        (layer_cache_fb_info fetch close layer).layer = layer) ∧
      (∀ e, e ≠ EINVAL → fetch (p.value % 2 ^ 32) = fetch_outcome.null e →
        (layer_cache_fb_info fetch close layer).ret = -e ∧
        (0 < e → (layer_cache_fb_info fetch close layer).ret < 0) ∧
        (layer_cache_fb_info fetch close layer).layer = layer) ∧
      (∀ fb, fetch (p.value % 2 ^ 32) = fetch_outcome.fb fb →
        (layer_cache_fb_info fetch close layer).ret = 0)) ∧
    ((layer_cache_fb_info fetch close layer).ret ≠ 0 →
      ∃ p e, layer_get_property layer FB_ID = some p ∧ p.value ≠ 0 ∧
        layer.fb_info.fb_id ≠ p.value ∧
        fetch (p.value % 2 ^ 32) = fetch_outcome.null e ∧ e ≠ EINVAL ∧
        (layer_cache_fb_info fetch close layer).ret = -e) := by
  refine ⟨?_, ?_, ?_⟩
  · rintro (h | ⟨p, h, hv⟩)
    · rw [cache_fb_info_absent h]
      exact ⟨rfl, rfl, rfl⟩
    · rw [cache_fb_info_zero h hv]
      exact ⟨rfl, rfl, rfl⟩
  · intro p h hv hid
    refine ⟨?_, ?_, ?_⟩
    · intro hf
      rw [cache_fb_info_null h hv hid hf]
      exact ⟨by simp, rfl⟩
    · intro e he hf
      rw [cache_fb_info_null h hv hid hf]
      rw [if_neg he]
      exact ⟨rfl, fun hpos => by show -e < 0; omega, rfl⟩
    · intro fb hf
      rw [cache_fb_info_fb h hv hid hf]
  · intro hret
    cases h : layer_get_property layer FB_ID with
    | none =>
      rw [cache_fb_info_absent h] at hret
      exact absurd rfl hret
    | some p =>
      by_cases hv : p.value = 0
      · rw [cache_fb_info_zero h hv] at hret
        exact absurd rfl hret
      · by_cases hid : layer.fb_info.fb_id = p.value
        · rw [cache_fb_info_hit h hv hid] at hret
          exact absurd rfl hret
        · cases hf : fetch (p.value % 2 ^ 32) with
          | null e =>
            rw [cache_fb_info_null h hv hid hf] at hret ⊢
            by_cases he : e = EINVAL
            · simp [he] at hret
            · exact ⟨p, e, rfl, hv, hid, hf, he, by simp [he]⟩
          | fb fb =>
            rw [cache_fb_info_fb h hv hid hf] at hret
            exact absurd rfl hret

/-- C14 on a layer with `FB_ID = 1`: a fetch failing with `errno = 2` makes
`layer_cache_fb_info` return -2 and leave the layer unchanged. -/
theorem C14_cache_fb_info_results_witness :
    layer_get_property (layer_with_rect 0 0 10 10) FB_ID =
      some { name := FB_ID, value := 1, prev_value := 0 } ∧
    (2 : Int) ≠ EINVAL ∧
    (layer_cache_fb_info (fun _ => fetch_outcome.null 2) close_ok
      (layer_with_rect 0 0 10 10)).ret = -2 ∧
    (layer_cache_fb_info (fun _ => fetch_outcome.null 2) close_ok
      (layer_with_rect 0 0 10 10)).layer = layer_with_rect 0 0 10 10 :=
  ⟨by decide, by decide,
    (((C14_cache_fb_info_results (layer_with_rect 0 0 10 10) (fun _ => fetch_outcome.null 2)
      close_ok).2.1 { name := FB_ID, value := 1, prev_value := 0 } (by decide) (by decide)
      (by decide)).2.1 2 (by decide) rfl).1,
    (((C14_cache_fb_info_results (layer_with_rect 0 0 10 10) (fun _ => fetch_outcome.null 2)
      close_ok).2.1 { name := FB_ID, value := 1, prev_value := 0 } (by decide) (by decide)
      (by decide)).2.1 2 (by decide) rfl).2.2⟩

/-- C15: after `layer_mark_clean`, every entry has `prev_value` equal to its
value, `prev_fb_info` equals `fb_info` and `changed` is false; the names, the
values and the number of the entries, `force_composition`, `fb_info` and both
priorities are as before; and a `layer_update_priority(layer, false)` that
follows at once leaves the layer, `pending_priority` included, as it is. -/
theorem C15_mark_clean_effect (layer : liftoff_layer) :
    (∀ p ∈ (layer_mark_clean layer).props, p.prev_value = p.value) ∧
    (layer_mark_clean layer).prev_fb_info = (layer_mark_clean layer).fb_info ∧
    (layer_mark_clean layer).changed = false ∧
    (layer_mark_clean layer).props.map (fun p => p.name) =
      layer.props.map (fun p => p.name) ∧
    (layer_mark_clean layer).props.map (fun p => p.value) =
      layer.props.map (fun p => p.value) ∧
    (layer_mark_clean layer).props_len = layer.props_len ∧
    (layer_mark_clean layer).force_composition = layer.force_composition ∧
    (layer_mark_clean layer).fb_info = layer.fb_info ∧
    (layer_mark_clean layer).current_priority = layer.current_priority ∧
    (layer_mark_clean layer).pending_priority = layer.pending_priority ∧
    (layer_update_priority (layer_mark_clean layer) false).pending_priority =
      layer.pending_priority ∧
    layer_update_priority (layer_mark_clean layer) false = layer_mark_clean layer := by
  have hup := (update_priority_of_unchanged (fb_id_unchanged_mark_clean layer)).1
  refine ⟨?_, rfl, rfl, ?_, ?_, ?_, rfl, rfl, rfl, rfl, ?_, hup⟩
  · intro p hp
    simp only [layer_mark_clean, List.mem_map] at hp
    obtain ⟨q, _, rfl⟩ := hp
    rfl
  · simp [layer_mark_clean, Function.comp_def]
  · simp [layer_mark_clean, Function.comp_def]
  · simp [layer_mark_clean, liftoff_layer.props_len]
  · rw [hup]
    rfl

/-- C15 on the layer with `FB_ID = 1` and a rectangle, after `FB_ID` was set to
5: once marked clean its `FB_ID` entry has `prev_value` 5 like its value, and
`layer_update_priority(layer, false)` leaves `pending_priority` at 0. -/
theorem C15_mark_clean_effect_witness :
    ({ name := FB_ID, value := 5, prev_value := 5 } : liftoff_layer_property) ∈
      (layer_mark_clean
        (liftoff_layer_set_property 32 true (layer_with_rect 0 0 10 10) FB_ID 5).2).props ∧
    (layer_update_priority
      (layer_mark_clean
        (liftoff_layer_set_property 32 true (layer_with_rect 0 0 10 10) FB_ID 5).2)
      false).pending_priority = 0 :=
  ⟨by decide,
    (C15_mark_clean_effect
      (liftoff_layer_set_property 32 true (layer_with_rect 0 0 10 10) FB_ID 5).2).2.2.2.2.2.2.2.2.2.2.1⟩

/-- C16 at its failing input, with `DRM_PROP_NAME_LEN = 32`: from the empty
layer, two calls `liftoff_layer_set_property` with the same name of 32
characters leave two live entries under the same stored name, its first 31
characters; the lookup compares the stored names with the whole name, finds
none, and the second call appends again. -/
theorem C16_duplicate_stored_names :
    (liftoff_layer.create 1).props = [] ∧
    (apply_prop_calls 32 (liftoff_layer.create 1)
      [prop_call.set long_name 1, prop_call.set long_name 2]).props =
      [{ name := long_name_stored, value := 1, prev_value := 0 },
        { name := long_name_stored, value := 2, prev_value := 0 }] ∧
    ¬ names_unique (apply_prop_calls 32 (liftoff_layer.create 1)
      [prop_call.set long_name 1, prop_call.set long_name 2]) := by
  decide

/-- C17: for every layer and every finite sequence of
`liftoff_layer_set_property`, `liftoff_layer_unset_property` and
`liftoff_layer_set_fb_composited` calls (whatever `realloc` does) performed
right after `layer_mark_clean`, `changed` is true at the end exactly when at
least one call of the sequence added a property entry, removed a property entry
or changed the value of `force_composition`; and a
`liftoff_layer_set_property` that only overwrites the value of an existing
property leaves `changed`, the number of entries and `force_composition` as
they were. -/
theorem C17_changed_flag (DRM_PROP_NAME_LEN : Nat) (layer : liftoff_layer)
    (calls : List layer_call) (hcalls : ∀ c ∈ calls, c ≠ layer_call.mark_clean) :
    ((apply_layer_calls DRM_PROP_NAME_LEN (layer_mark_clean layer) calls).changed = true ↔
      some_call_marks_change DRM_PROP_NAME_LEN (layer_mark_clean layer) calls) ∧
    (∀ (realloc_ok : Bool) (l : liftoff_layer) (name : List Char) (v : Nat),
      (∃ p, layer_get_property l name = some p) →
      ¬ (name = FB_ID ∧ l.force_composition = true) →
      (liftoff_layer_set_property DRM_PROP_NAME_LEN realloc_ok l name v).2.changed = l.changed ∧
      (liftoff_layer_set_property DRM_PROP_NAME_LEN realloc_ok l name v).2.props_len =
        l.props_len ∧
      (liftoff_layer_set_property DRM_PROP_NAME_LEN realloc_ok l name v).2.force_composition =
        l.force_composition) := by
  constructor
  · rw [changed_apply_layer_calls DRM_PROP_NAME_LEN calls (layer_mark_clean layer) hcalls]
    have hclean : (layer_mark_clean layer).changed = false := rfl
    simp [hclean]
  · intro ok l name v hex hfb
    by_cases hn : name = CRTC_ID
    · subst hn
      rw [get_set_property_crtc_id]
      exact ⟨rfl, rfl, rfl⟩
    · obtain ⟨p, hp⟩ := hex
      obtain ⟨i, hi⟩ := find_property_of_get hp
      obtain ⟨h1, h2, h3⟩ := set_property_fields_found DRM_PROP_NAME_LEN ok hn hi v
      rw [if_neg hfb] at h1 h2
      exact ⟨h2, h3, h1⟩

/-- C17 at `DRM_PROP_NAME_LEN = 32`, on the layer with `FB_ID = 1` and a
rectangle: after `layer_mark_clean`, overwriting `FB_ID` and `CRTC_X` and
unsetting the absent `alpha` leaves `changed` false, so no call of the sequence
added or removed an entry or changed `force_composition`. -/
theorem C17_changed_flag_witness :
    (∀ c ∈ [layer_call.set_property true FB_ID 9, layer_call.set_property false CRTC_X 4,
        layer_call.unset_property alpha], c ≠ layer_call.mark_clean) ∧
    (apply_layer_calls 32 (layer_mark_clean (layer_with_rect 0 0 10 10))
      [layer_call.set_property true FB_ID 9, layer_call.set_property false CRTC_X 4,
        layer_call.unset_property alpha]).changed = false ∧
    ¬ some_call_marks_change 32 (layer_mark_clean (layer_with_rect 0 0 10 10))
      [layer_call.set_property true FB_ID 9, layer_call.set_property false CRTC_X 4,
        layer_call.unset_property alpha] :=
  ⟨by decide, by decide, fun h =>
    absurd
      ((C17_changed_flag 32 (layer_with_rect 0 0 10 10)
        [layer_call.set_property true FB_ID 9, layer_call.set_property false CRTC_X 4,
          layer_call.unset_property alpha] (by decide)).1.2 h)
      (by decide)⟩

/-- C18: for every output and every layer of it, `liftoff_layer_destroy` sets
`layers_changed`, sets the `layer` field of the plane assigned to the layer, if
any, to `NULL` and leaves the other planes as they are, sets
`composition_layer` to `NULL` exactly when it pointed to this layer and leaves
it unchanged otherwise, and removes the layer from the list of layers, the
other layers keeping their order; destroying `NULL` changes nothing. -/
theorem C18_destroy_effect (output : liftoff_output) (addr : Nat) (l : liftoff_layer)
    (hlayer : output.layers.find? (fun e => decide (e.1 = addr)) = some (addr, l)) :
    (liftoff_layer_destroy output (some addr)).layers_changed = true ∧
    (∀ plane, l.plane = some plane → ∀ i,
      (liftoff_layer_destroy output (some addr)).planes[i]? =
        if i = plane then (output.planes[i]?).map (fun pl => { pl with layer := none })
        else output.planes[i]?) ∧
    (l.plane = none → (liftoff_layer_destroy output (some addr)).planes = output.planes) ∧
    (liftoff_layer_destroy output (some addr)).composition_layer =
      (if output.composition_layer = some addr then none else output.composition_layer) ∧
    (∃ pre post, output.layers = pre ++ (addr, l) :: post ∧ (∀ e ∈ pre, e.1 ≠ addr) ∧
      (liftoff_layer_destroy output (some addr)).layers = pre ++ post) ∧
    (liftoff_layer_destroy output (some addr)).planes_cap = output.planes_cap ∧
    liftoff_layer_destroy output none = output := by
  have hdestroy : liftoff_layer_destroy output (some addr) =
      { planes := (match l.plane with
          | some plane => clear_plane_layer output.planes plane
          | none => output.planes),
        planes_cap := output.planes_cap,
        composition_layer :=
          (if output.composition_layer = some addr then none else output.composition_layer),
        layers := liftoff_list_remove output.layers addr,
        layers_changed := true } := by
    unfold liftoff_layer_destroy
    simp only [hlayer]
    cases l.plane <;> by_cases hc : output.composition_layer = some addr <;> simp [hc]
  rw [hdestroy]
  refine ⟨rfl, ?_, ?_, rfl, ?_, rfl, rfl⟩
  · intro plane hplane i
    simp only [hplane]
    exact clear_plane_layer_getElem _ _ _
  · intro hplane
    simp only [hplane]
  · obtain ⟨pre, post, h1, h2, h3⟩ := list_remove_of_find hlayer
    exact ⟨pre, post, h1, h2, h3⟩

/-- C18 on an output with layers at 10, 20 and 30, the layer at 20 holding
plane 1 and being the composition layer: destroying it leaves the layers at 10
and 30 in this order, clears the plane and the composition layer. -/
theorem C18_destroy_effect_witness :
    example_output.layers.find? (fun e => decide (e.1 = 20)) =
      some (20, { liftoff_layer.create 2 with plane := some 1 }) ∧
    (liftoff_layer_destroy example_output (some 20)).layers_changed = true ∧
    (liftoff_layer_destroy example_output (some 20)).composition_layer = none ∧
    (liftoff_layer_destroy example_output (some 20)).layers =
      [(10, liftoff_layer.create 2), (30, liftoff_layer.create 2)] ∧
    (liftoff_layer_destroy example_output (some 20)).planes =
      [{ id := 31, layer := none }, { id := 32, layer := none }] :=
  ⟨by decide,
    (C18_destroy_effect example_output 20 { liftoff_layer.create 2 with plane := some 1 }
      (by decide)).1,
    by decide, by decide, by decide⟩

/-- C19: from an all-empty candidate array of `planes_cap` slots, every
sequence of `layer_add_candidate_plane` and `layer_reset_candidate_planes`
calls whose plane ids are non-zero and drawn from a set of at most `planes_cap`
values runs without `assert(empty_slot >= 0)` failing; and in the layer it
reaches (any layer such a sequence reaches), a further add of an id of the set
that is present changes nothing, while a further add of an id of the set that
is not present finds an empty slot and stores the id in the lowest-indexed one,
leaving the other slots unchanged. -/
theorem C19_capacity_assert_holds (layer : liftoff_layer) (ids : Finset Nat)
    (calls : List candidate_call)
    (hempty : ∀ c ∈ layer.candidate_planes, c = 0)
    (hcard : ids.card ≤ layer.planes_cap) (hnonzero : 0 ∉ ids)
    (hcalls : ∀ id, candidate_call.add id ∈ calls → id ∈ ids) :
    ∃ final, apply_candidate_calls layer calls = some final ∧
      final.planes_cap = layer.planes_cap ∧
      ∀ p ∈ ids,
        (p ∈ final.candidate_planes → layer_add_candidate_plane final p = some final) ∧
        (p ∉ final.candidate_planes →
          ∃ k, final.candidate_planes[k]? = some 0 ∧
            (∀ j, j < k → final.candidate_planes[j]? ≠ some 0) ∧
            layer_add_candidate_plane final p =
              some { final with candidate_planes := final.candidate_planes.set k p }) := by
  obtain ⟨final, hf, hinv, hcap⟩ := apply_candidate_calls_within hnonzero calls layer
    (candidates_within_of_empty ids hempty) hcard hcalls
  refine ⟨final, hf, hcap, ?_⟩
  intro p hp
  have hp0 : p ≠ 0 := fun e => hnonzero (e ▸ hp)
  have hadd := add_candidate_within hinv (by rw [hcap]; exact hcard) hp hp0
  refine ⟨hadd.1, ?_⟩
  intro hnew
  obtain ⟨hz, heq⟩ := hadd.2.1 hnew
  exact ⟨final.candidate_planes.indexOf 0, getElem?_indexOf_zero hz,
    getElem?_ne_of_lt_indexOf _ _, heq⟩

/-- C19 on a fresh layer of a device with two planes and the ids 3 and 7:
`add 3, add 7, add 3, reset, add 7` runs through and leaves the array
`[7, 0]`. -/
theorem C19_capacity_assert_holds_witness :
    (∀ c ∈ (liftoff_layer.create 2).candidate_planes, c = 0) ∧
    ({3, 7} : Finset Nat).card ≤ (liftoff_layer.create 2).planes_cap ∧
    0 ∉ ({3, 7} : Finset Nat) ∧
    apply_candidate_calls (liftoff_layer.create 2)
      [candidate_call.add 3, candidate_call.add 7, candidate_call.add 3,
        candidate_call.reset, candidate_call.add 7] =
      some { liftoff_layer.create 2 with candidate_planes := [7, 0] } ∧
    ∃ final, apply_candidate_calls (liftoff_layer.create 2)
      [candidate_call.add 3, candidate_call.add 7, candidate_call.add 3,
        candidate_call.reset, candidate_call.add 7] = some final ∧
      final.planes_cap = (liftoff_layer.create 2).planes_cap :=
  ⟨by decide, by decide, by decide, by decide,
    (C19_capacity_assert_holds (liftoff_layer.create 2) {3, 7}
      [candidate_call.add 3, candidate_call.add 7, candidate_call.add 3,
        candidate_call.reset, candidate_call.add 7]
      (by decide) (by decide) (by decide)
      (by
        intro id hid
        simp only [List.mem_cons, candidate_call.add.injEq, List.mem_singleton,
          List.not_mem_nil, or_false, false_or, reduceCtorEq] at hid
        rcases hid with h | h | h | h <;> simp [h])).imp
      (fun _ h => ⟨h.1, h.2.1⟩)⟩

/-- C20: `liftoff_layer_is_candidate_plane` with plane id 0 returns true exactly
when the candidate array has a zero slot; so it returns true for the layer that
`liftoff_layer_create` builds and after `layer_reset_candidate_planes`
whenever `planes_cap > 0`, and it returns false for every plane id when
`planes_cap = 0`. -/
theorem C20_sentinel_is_candidate (layer : liftoff_layer) :
    (liftoff_layer_is_candidate_plane layer 0 = true ↔ 0 ∈ layer.candidate_planes) ∧
    (∀ (output : liftoff_output) (addr : Nat),
      (liftoff_layer_create (some addr) true output).1 = some addr ∧
      (addr, liftoff_layer.create output.planes_cap) ∈
        (liftoff_layer_create (some addr) true output).2.layers ∧
      (0 < output.planes_cap →
        liftoff_layer_is_candidate_plane (liftoff_layer.create output.planes_cap) 0 = true)) ∧
    (0 < layer.planes_cap →
      liftoff_layer_is_candidate_plane (layer_reset_candidate_planes layer) 0 = true) ∧
    (layer.planes_cap = 0 → ∀ plane_id, liftoff_layer_is_candidate_plane layer plane_id = false) := by
  refine ⟨is_candidate_iff layer 0, ?_, ?_, ?_⟩
  · intro output addr
    refine ⟨rfl, ?_, ?_⟩
    · simp [liftoff_layer_create, liftoff_list_insert]
    · intro hcap
      rw [is_candidate_iff]
      exact List.mem_replicate.2 ⟨by omega, rfl⟩
  · intro hcap
    rw [is_candidate_iff]
    exact List.mem_replicate.2 ⟨by omega, rfl⟩
  · intro hcap plane_id
    have hnil : layer.candidate_planes = [] := List.length_eq_zero.1 hcap
    simp [liftoff_layer_is_candidate_plane, hnil]

/-- C20 on the array `[3, 7]` of a device with two planes: id 0 is no candidate
as no slot is empty, and it is one after `layer_reset_candidate_planes`. -/
theorem C20_sentinel_is_candidate_witness :
    liftoff_layer_is_candidate_plane
      { liftoff_layer.create 2 with candidate_planes := [3, 7] } 0 = false ∧
    0 < ({ liftoff_layer.create 2 with candidate_planes := [3, 7] } : liftoff_layer).planes_cap ∧
    liftoff_layer_is_candidate_plane
      (layer_reset_candidate_planes
        { liftoff_layer.create 2 with candidate_planes := [3, 7] }) 0 = true :=
  ⟨by decide, by decide,
    (C20_sentinel_is_candidate { liftoff_layer.create 2 with candidate_planes := [3, 7] }).2.2.1
      (by decide)⟩

end Liftoff
